import Mathlib

/-!
# Identity verification, membership authorization and board notifications

A shallow embedding of the token validator and the request middlewares (noti-service,
video-service and storage-service `middleware/auth.go`), the workspace membership client
(video-service `client/user_client.go`) and the board update notifier with its
notification client (board-service `service/board_service_update.go`,
`client/noti_client.go`).

Go functions returning `(T, error)` are embedded as pairs `T × Option GoError`
(`none` is the `nil` error).  Behaviour of external libraries that the code
calls (JWT signature checking, the HTTP transport, JSON decoding, the clock) is
supplied by an `Env` record, so every theorem holds for all behaviours of
those libraries.  `uuid.Parse` is embedded concretely.
-/

set_option autoImplicit false

namespace Wealist

/-! ## Go values -/

/-- Go `error` values that the embedded code can return. -/
inductive GoError where
  /-- The sentinel `jwt.ErrTokenInvalidClaims`. -/
  | ErrTokenInvalidClaims
  /-- The `invalidLengthError` of package uuid, with the offending length. -/
  | uuidInvalidLength (len : Nat)
  /-- The uuid error `errors.New("invalid UUID format")`. -/
  | uuidInvalidFormat
  /-- The uuid error `fmt.Errorf("invalid urn prefix: %q", s[:9])`. -/
  | uuidInvalidURN (head : List Nat)
  /-- An error produced by an external library (net/http, encoding/json, jwt). -/
  | external (msg : String)
  /-- The value `fmt.Errorf(msg)` without a wrapped error. -/
  | errorf (msg : String)
  /-- The value `fmt.Errorf(msg + ": %w", inner)`. -/
  | wrap (msg : String) (inner : GoError)
  /-- The value `fmt.Errorf("... returned status %d", code)`. -/
  | status (msg : String) (code : Nat)
  deriving DecidableEq, Repr

/-- A `uuid.UUID`: sixteen bytes, kept as a list of byte values. -/
structure UUID where
  bytes : List Nat
  deriving DecidableEq, Repr

/-- The zero value `uuid.Nil`. -/
def UUID.Nil : UUID := ⟨List.replicate 16 0⟩

/-- A computation that either returns or aborts with a run-time panic. -/
inductive Outcome (α : Type) where
  | ret (a : α)
  | panic (msg : String)
  deriving DecidableEq, Repr

/-- The bytes of a Go string: its UTF-8 encoding. -/
def goBytes (s : String) : List Nat :=
  (s.toList.flatMap String.utf8EncodeChar).map UInt8.toNat

/-! ## Package uuid: `Parse` -/

/-- The table `xvalues` of package uuid: the value of a hexadecimal digit, 255 otherwise. -/
def xvalues (b : Nat) : Nat :=
  if 48 ≤ b ∧ b ≤ 57 then b - 48
  else if 65 ≤ b ∧ b ≤ 70 then b - 55
  else if 97 ≤ b ∧ b ≤ 102 then b - 87
  else 255

/-- The helper `xtob` of package uuid: two hexadecimal digits to one byte. -/
def xtob (x1 x2 : Nat) : Nat × Bool :=
  let b1 := xvalues x1
  let b2 := xvalues x2
  (((b1 <<< 4) ||| b2) % 256, b1 != 255 && b2 != 255)

/-- ASCII lower-casing of one byte, as `strings.EqualFold` sees it against an ASCII pattern. -/
def asciiLower (b : Nat) : Nat :=
  if 65 ≤ b ∧ b ≤ 90 then b + 32 else b

/-- The positions of the sixteen digit pairs in the 36-byte form. -/
def uuidOffsets : List Nat :=
  [0, 2, 4, 6, 9, 11, 14, 16, 19, 21, 24, 26, 28, 30, 32, 34]

/-- The loop of `uuid.Parse` over the 36-byte form: the byte is stored only after
the pair was found to be hexadecimal. -/
def parseDashed (s : List Nat) : List (Nat × Nat) → List Nat → UUID × Option GoError
  | [], u => (⟨u⟩, none)
  | (i, x) :: rest, u =>
    let r := xtob (s.getD x 0) (s.getD (x + 1) 0)
    if !r.2 then (⟨u⟩, some GoError.uuidInvalidFormat)
    else parseDashed s rest (u.set i r.1)

/-- The loop of `uuid.Parse` over the 32-byte form: the byte is stored before the
check, so a failing pair leaves its value in the returned array. -/
def parsePlain (s : List Nat) : List Nat → List Nat → UUID × Option GoError
  | [], u => (⟨u⟩, none)
  | i :: rest, u =>
    let r := xtob (s.getD (i * 2) 0) (s.getD (i * 2 + 1) 0)
    let u1 := u.set i r.1
    if !r.2 then (⟨u1⟩, some GoError.uuidInvalidFormat)
    else parsePlain s rest u1

/-- The common tail of `uuid.Parse`: `s` has the form xxxxxxxx-xxxx-xxxx-xxxx-xxxxxxxxxxxx. -/
def parseBody (s : List Nat) : UUID × Option GoError :=
  if s.getD 8 0 ≠ 45 ∨ s.getD 13 0 ≠ 45 ∨ s.getD 18 0 ≠ 45 ∨ s.getD 23 0 ≠ 45 then
    (UUID.Nil, some GoError.uuidInvalidFormat)
  else parseDashed s uuidOffsets.enum UUID.Nil.bytes

/-- The function `uuid.Parse` of github.com/google/uuid, on the bytes of its argument. -/
def uuidParseBytes (s : List Nat) : UUID × Option GoError :=
  if s.length = 36 then parseBody s
  else if s.length = 36 + 9 then
    if (s.take 9).map asciiLower ≠ goBytes "urn:uuid:" then
      (UUID.Nil, some (GoError.uuidInvalidURN (s.take 9)))
    else parseBody (s.drop 9)
  else if s.length = 36 + 2 then parseBody (s.drop 1)
  else if s.length = 32 then parsePlain s (List.range 16) UUID.Nil.bytes
  else (UUID.Nil, some (GoError.uuidInvalidLength s.length))

/-- The function `uuid.Parse` on a Go string. -/
def uuidParse (s : String) : UUID × Option GoError :=
  uuidParseBytes (goBytes s)

/-! ## JSON values and JWT claims -/

/-- The dynamic values a decoded JSON document holds behind `interface{}`. -/
inductive JVal where
  | str (s : String)
  | num (n : Int)
  | bool (b : Bool)
  | null
  | arr (items : List JVal)
  | obj (fields : List (String × JVal))

/-- The type `jwt.MapClaims`, a `map[string]interface{}`; the first entry with a key is its binding. -/
abbrev MapClaims := List (String × JVal)

/-- The interface `jwt.Claims` as the validator inspects it. -/
inductive Claims where
  | mapClaims (m : MapClaims)
  | otherClaims

/-- The fields of `*jwt.Token` that the validator reads. -/
structure JwtToken where
  Valid : Bool
  Claims : Claims

/-! ## Notification events (board-service `client/noti_client.go`) -/

/-- The string type `NotificationType`. -/
abbrev NotificationType := String

/-- The constant `NotificationTypeBoardAssigned`. -/
def NotificationTypeBoardAssigned : NotificationType := "BOARD_ASSIGNED"

/-- The constant `NotificationTypeBoardParticipantAdded`. -/
def NotificationTypeBoardParticipantAdded : NotificationType := "BOARD_PARTICIPANT_ADDED"

/-- The string type `ResourceType`. -/
abbrev ResourceType := String

/-- The constant `ResourceTypeBoard`. -/
def ResourceTypeBoard : ResourceType := "board"

/-- The Go values the event constructors store in a metadata map. -/
inductive GoValue where
  | string (s : String)
  | int64 (n : Int)
  deriving DecidableEq, Repr

/-- The struct `NotificationEvent`; its field `Type` is `Type_` here. -/
structure NotificationEvent where
  Type_ : NotificationType
  ActorID : UUID
  TargetUserID : UUID
  WorkspaceID : UUID
  ResourceType : ResourceType
  ResourceID : UUID
  ResourceName : Option String
  Metadata : List (String × GoValue)
  deriving DecidableEq, Repr

/-! ## HTTP -/

/-- The value that was serialised into a request body. -/
inductive Payload where
  | tokenBody (token : String)
  /-- The struct `BulkNotificationRequest` with its field `Notifications`. -/
  | bulkNotifications (events : List NotificationEvent)
  deriving DecidableEq, Repr

/-- An outgoing HTTP request. -/
structure HttpRequest where
  method : String
  url : String
  headers : List (String × String)
  body : Option Payload
  deriving DecidableEq, Repr

/-- An HTTP response as received. -/
structure HttpResponse where
  StatusCode : Nat
  Body : String
  deriving DecidableEq, Repr

/-- The body of a successful membership check, `WorkspaceValidationResponse`. -/
structure WorkspaceValidationResponse where
  WorkspaceID : UUID
  UserID : UUID
  Valid : Bool
  IsValid : Bool
  IsMember : Bool
  deriving DecidableEq, Repr

/-- The behaviour of the libraries and remote services around the code. -/
structure Env where
  /-- The call `jwt.Parse(tokenString, keyFunc)` with the key the key function returns. -/
  jwtParse : String → String → Option JwtToken × Option GoError
  /-- The error of `http.NewRequestWithContext(ctx, method, url, body)`, if any. -/
  newRequest : String → String → Option GoError
  /-- The call `httpClient.Do(req)`: a transport error or a response. -/
  httpDo : HttpRequest → Except GoError HttpResponse
  /-- Decoding a body into `struct { UserID string }` with `json.NewDecoder(..).Decode`. -/
  decodeUserID : String → Except GoError String
  /-- Decoding a body into `WorkspaceValidationResponse`. -/
  decodeWorkspaceValidation : String → Except GoError WorkspaceValidationResponse
  /-- The value of `time.Now().Unix()` at the given reading of the clock. -/
  now : Nat → Int
  /-- The error of `json.Marshal` on a request payload, if any. -/
  marshalError : Payload → Option GoError := fun _ => none
  /-- The call `jwt.Parse(tokenString, keyFunc)` of storage-service, whose key function
  accepts HMAC signing methods only. -/
  jwtParseHMAC : String → String → Option JwtToken × Option GoError := jwtParse

/-! ## The token validator (noti-service and video-service, same code) -/

/-- The configuration fields of `AuthServiceValidator`. -/
structure AuthServiceValidator where
  authServiceURL : String
  secretKey : String

/-- The order in which `validateLocally` tries the claim keys. -/
def claimKeys : List String := ["sub", "userId", "user_id"]

/-- The unchecked type assertion `val.(string)`: it panics on every other dynamic type. -/
def assertString : JVal → Outcome String
  | JVal.str s => Outcome.ret s
  | _ => Outcome.panic "interface conversion: interface is not string"

/-- The loop of `validateLocally` over the claim keys: the first key that exists
ends the loop, and its value goes through the unchecked assertion `val.(string)`. -/
def claimLoop (claims : MapClaims) : List String → Outcome String
  | [] => Outcome.ret ""
  | key :: rest =>
    match claims.lookup key with
    | some val => assertString val
    | none => claimLoop claims rest

/-- The method `validateLocally`. -/
def AuthServiceValidator.validateLocally (env : Env) (v : AuthServiceValidator)
    (tokenString : String) : Outcome (UUID × Option GoError) :=
  match env.jwtParse tokenString v.secretKey with
  | (_, some _) => Outcome.ret (UUID.Nil, some GoError.ErrTokenInvalidClaims)
  | (none, none) => Outcome.panic "nil pointer dereference"
  | (some token, none) =>
    if !token.Valid then Outcome.ret (UUID.Nil, some GoError.ErrTokenInvalidClaims)
    else
      match token.Claims with
      | Claims.otherClaims => Outcome.ret (UUID.Nil, some GoError.ErrTokenInvalidClaims)
      | Claims.mapClaims claims =>
        match claimLoop claims claimKeys with
        | Outcome.panic msg => Outcome.panic msg
        | Outcome.ret userIDStr =>
          if userIDStr = "" then Outcome.ret (UUID.Nil, some GoError.ErrTokenInvalidClaims)
          else Outcome.ret (uuidParse userIDStr)

/-- The request `validateWithAuthService` builds for a token. -/
def authValidateRequest (v : AuthServiceValidator) (token : String) : HttpRequest :=
  { method := "POST"
    url := v.authServiceURL ++ "/api/auth/validate"
    headers := [("Content-Type", "application/json"), ("Authorization", "Bearer " ++ token)]
    body := some (Payload.tokenBody token) }

/-- The method `validateWithAuthService`: its result and the requests it sent. -/
def AuthServiceValidator.validateWithAuthService (env : Env) (v : AuthServiceValidator)
    (token : String) : (UUID × Option GoError) × List HttpRequest :=
  let url := v.authServiceURL ++ "/api/auth/validate"
  match env.newRequest "POST" url with
  | some err => ((UUID.Nil, some err), [])
  | none =>
    let req := authValidateRequest v token
    match env.httpDo req with
    | Except.error err => ((UUID.Nil, some err), [req])
    | Except.ok resp =>
      if resp.StatusCode ≠ 200 then ((UUID.Nil, some GoError.ErrTokenInvalidClaims), [req])
      else
        match env.decodeUserID resp.Body with
        | Except.error err => ((UUID.Nil, some err), [req])
        | Except.ok userID => (uuidParse userID, [req])

/-- The method `ValidateToken`: its outcome and the requests it sent. -/
def AuthServiceValidator.ValidateToken (env : Env) (v : AuthServiceValidator)
    (tokenString : String) : Outcome (UUID × Option GoError) × List HttpRequest :=
  if v.authServiceURL ≠ "" then
    match v.validateWithAuthService env tokenString with
    | ((userID, none), calls) => (Outcome.ret (userID, none), calls)
    | ((_, some _), calls) => (v.validateLocally env tokenString, calls)
  else (v.validateLocally env tokenString, [])

/-! ## The membership client (video-service) -/

/-- The lower-case hexadecimal digits of one byte. -/
def hexByte (b : Nat) : List Char :=
  let digits := "0123456789abcdef".toList
  [digits.getD (b / 16 % 16) '0', digits.getD (b % 16) '0']

/-- The method `UUID.String` of package uuid: xxxxxxxx-xxxx-xxxx-xxxx-xxxxxxxxxxxx. -/
def UUID.String (u : UUID) : String :=
  let hex := fun (bs : List Nat) => bs.flatMap hexByte
  let b := u.bytes
  String.mk (hex (b.take 4) ++ ['-'] ++ hex ((b.drop 4).take 2) ++ ['-'] ++
    hex ((b.drop 6).take 2) ++ ['-'] ++ hex ((b.drop 8).take 2) ++ ['-'] ++ hex (b.drop 10))

/-- The configuration fields of `userClient`. -/
structure userClient where
  baseURL : String

/-- The function `strings.Contains`. -/
def stringsContains (s sub : String) : Bool :=
  decide (sub.toList <:+: s.toList)

/-- The method `buildURL`: both branches build the same address. -/
def userClient.buildURL (c : userClient) (endpoint : String) : String :=
  let endpoint := if !endpoint.startsWith "/" then "/" ++ endpoint else endpoint
  let hasContextPath :=
    stringsContains c.baseURL "/api/users" || stringsContains c.baseURL "/api/boards"
  if hasContextPath then c.baseURL ++ "/api" ++ endpoint
  else c.baseURL ++ "/api" ++ endpoint

/-- The request `ValidateWorkspaceMember` builds. -/
def validateMemberRequest (c : userClient) (workspaceID userID : UUID) (token : String) :
    HttpRequest :=
  { method := "GET"
    url := c.buildURL ("/workspaces/" ++ workspaceID.String ++ "/validate-member/" ++
      userID.String)
    headers := [("Authorization", "Bearer " ++ token), ("Content-Type", "application/json")]
    body := none }

/-- The method `ValidateWorkspaceMember`. -/
def userClient.ValidateWorkspaceMember (env : Env) (c : userClient)
    (workspaceID userID : UUID) (token : String) : Bool × Option GoError :=
  let req := validateMemberRequest c workspaceID userID token
  match env.newRequest "GET" req.url with
  | some err => (false, some (GoError.wrap "failed to create request" err))
  | none =>
    match env.httpDo req with
    | Except.error err => (false, some (GoError.wrap "failed to call user-service" err))
    | Except.ok resp =>
      if resp.StatusCode ≠ 200 then
        if resp.StatusCode = 403 ∨ resp.StatusCode = 404 then (false, none)
        else (false, some (GoError.status "user-service returned status" resp.StatusCode))
      else
        match env.decodeWorkspaceValidation resp.Body with
        | Except.error err => (false, some (GoError.wrap "failed to decode response" err))
        | Except.ok response =>
          let isValid := response.Valid || response.IsValid || response.IsMember
          (isValid, none)

/-! ## The notification client and the board update notifier (board-service) -/

/-- The constructor `NewBoardAssignedEvent`; `clock` is the clock reading it takes. -/
def NewBoardAssignedEvent (env : Env) (clock : Nat)
    (actorID targetUserID workspaceID boardID : UUID) (boardTitle projectName : String) :
    NotificationEvent :=
  { Type_ := NotificationTypeBoardAssigned
    ActorID := actorID
    TargetUserID := targetUserID
    WorkspaceID := workspaceID
    ResourceType := ResourceTypeBoard
    ResourceID := boardID
    ResourceName := some boardTitle
    Metadata := [("projectName", GoValue.string projectName),
      ("timestamp", GoValue.int64 (env.now clock))] }

/-- The constructor `NewBoardParticipantAddedEvent`; `clock` is the clock reading it takes. -/
def NewBoardParticipantAddedEvent (env : Env) (clock : Nat)
    (actorID targetUserID workspaceID boardID : UUID) (boardTitle projectName : String) :
    NotificationEvent :=
  { Type_ := NotificationTypeBoardParticipantAdded
    ActorID := actorID
    TargetUserID := targetUserID
    WorkspaceID := workspaceID
    ResourceType := ResourceTypeBoard
    ResourceID := boardID
    ResourceName := some boardTitle
    Metadata := [("projectName", GoValue.string projectName),
      ("timestamp", GoValue.int64 (env.now clock))] }

/-- The configuration fields of `notiClientImpl`. -/
structure notiClientImpl where
  baseURL : String
  internalAPIKey : String
  enabled : Bool

/-- The implementations of the interface `NotiClient`. -/
inductive NotiClient where
  | impl (c : notiClientImpl)
  | noop

/-- The method `IsEnabled` of `notiClientImpl`. -/
def notiClientImpl.IsEnabled (c : notiClientImpl) : Bool :=
  c.enabled && c.internalAPIKey != ""

/-- The method `IsEnabled` of the interface: `NoopNotiClient` answers false. -/
def NotiClient.IsEnabled : NotiClient → Bool
  | NotiClient.impl c => c.IsEnabled
  | NotiClient.noop => false

/-- Modelled from the spec: the declaration of `domain.Participant` (package domain) is
missing; this is the field `sendBoardUpdatedNotifications` reads. -/
structure Participant where
  UserID : UUID
  deriving DecidableEq, Repr

/-- Modelled from the spec: the declaration of `domain.Board` (package domain) is missing;
these are the fields `sendBoardUpdatedNotifications` reads, a `nil` pointer being `none`. -/
structure Board where
  ID : UUID
  ProjectID : UUID
  Title : String
  AssigneeID : Option UUID
  Participants : List Participant
  deriving DecidableEq, Repr

/-- Modelled from the spec: the declaration of `domain.Project` (package domain) is
missing; these are the fields `sendBoardUpdatedNotifications` reads. -/
structure Project where
  WorkspaceID : UUID
  Name : String
  deriving DecidableEq, Repr

/-- Modelled from the spec: the declaration of `dto.UpdateBoardRequest` (package dto) is
missing; these are the fields `sendBoardUpdatedNotifications` reads.  A `nil` pointer or
slice is `none`. -/
structure UpdateBoardRequest where
  AssigneeID : Option UUID
  Participants : Option (List UUID)
  deriving DecidableEq, Repr

/-- The fields of `boardServiceImpl` the notifier uses; `findProject` is the call
`s.projectRepo.FindByID(ctx, id)`. -/
structure boardServiceImpl where
  notiClient : Option NotiClient
  findProject : UUID → Except GoError Project

/-- A `map[uuid.UUID]bool`; the first entry with a key is its binding. -/
abbrev UUIDSet := List (UUID × Bool)

/-- The index expression `m[k]` on a `map[uuid.UUID]bool`: false for a missing key. -/
def UUIDSet.get (m : UUIDSet) (k : UUID) : Bool :=
  (m.lookup k).getD false

/-- The snapshot `existingParticipantIDs` that `UpdateBoard` takes before the mutation. -/
def existingParticipantSet (participants : List Participant) : UUIDSet :=
  participants.map (fun p => (p.UserID, true))

/-- The flag `assigneeChanged` of `sendBoardUpdatedNotifications`. -/
def assigneeChanged (oldAssigneeID newAssigneeID : Option UUID) : Bool :=
  match oldAssigneeID, newAssigneeID with
  | none, some _ => true
  | some o, some n => o != n
  | _, _ => false

/-- The assignee block of `sendBoardUpdatedNotifications`, run when
`req.AssigneeID != nil`. -/
def assigneeStep (env : Env) (actorID : UUID) (board : Board) (oldAssigneeID : Option UUID)
    (project : Project) (notifications : List NotificationEvent) : List NotificationEvent :=
  let newAssigneeID := board.AssigneeID
  match newAssigneeID with
  | some newID =>
    if assigneeChanged oldAssigneeID newAssigneeID && newID != actorID then
      notifications ++ [NewBoardAssignedEvent env notifications.length actorID newID
        project.WorkspaceID board.ID board.Title project.Name]
    else notifications
  | none => notifications

/-- The participant loop of `sendBoardUpdatedNotifications`, run when
`req.Participants != nil`. -/
def participantLoop (env : Env) (actorID : UUID) (board : Board)
    (existingParticipantIDs : UUIDSet) (project : Project) :
    List Participant → List NotificationEvent → List NotificationEvent
  | [], notifications => notifications
  | participant :: rest, notifications =>
    if !existingParticipantIDs.get participant.UserID && participant.UserID != actorID then
      if (match board.AssigneeID with
          | some assigneeID => participant.UserID == assigneeID
          | none => false) then
        participantLoop env actorID board existingParticipantIDs project rest notifications
      else
        participantLoop env actorID board existingParticipantIDs project rest
          (notifications ++ [NewBoardParticipantAddedEvent env notifications.length actorID
            participant.UserID project.WorkspaceID board.ID board.Title project.Name])
    else participantLoop env actorID board existingParticipantIDs project rest notifications

/-- The slice `notifications` that `sendBoardUpdatedNotifications` has built when it
reaches the bulk send. -/
def boardUpdatedBatch (env : Env) (actorID : UUID) (board : Board)
    (oldAssigneeID : Option UUID) (existingParticipantIDs : UUIDSet)
    (req : UpdateBoardRequest) (project : Project) : List NotificationEvent :=
  let notifications : List NotificationEvent := []
  let notifications :=
    if req.AssigneeID.isSome then
      assigneeStep env actorID board oldAssigneeID project notifications
    else notifications
  if req.Participants.isSome then
    participantLoop env actorID board existingParticipantIDs project board.Participants
      notifications
  else notifications

/-- The method `sendBoardUpdatedNotifications`: the list of `SendBulkNotifications`
calls it makes, each with the batch passed. -/
def boardServiceImpl.sendBoardUpdatedNotifications (env : Env) (s : boardServiceImpl)
    (actorID : UUID) (board : Board) (oldAssigneeID : Option UUID)
    (existingParticipantIDs : UUIDSet) (req : UpdateBoardRequest) :
    List (List NotificationEvent) :=
  match s.notiClient with
  | none => []
  | some notiClient =>
    if !notiClient.IsEnabled then []
    else
      match s.findProject board.ProjectID with
      | Except.error _ => []
      | Except.ok project =>
        let notifications :=
          boardUpdatedBatch env actorID board oldAssigneeID existingParticipantIDs req project
        if notifications.length > 0 then [notifications] else []

/-- The request `SendBulkNotifications` builds for a batch. -/
def bulkNotificationsRequest (c : notiClientImpl) (events : List NotificationEvent) :
    HttpRequest :=
  { method := "POST"
    url := c.baseURL ++ "/api/internal/notifications/bulk"
    headers := [("Content-Type", "application/json"), ("X-Internal-Api-Key", c.internalAPIKey)]
    body := some (Payload.bulkNotifications events) }

/-- The method `SendBulkNotifications` of `notiClientImpl`: its error and the requests it
sent. -/
def notiClientImpl.SendBulkNotifications (env : Env) (c : notiClientImpl)
    (events : List NotificationEvent) : Option GoError × List HttpRequest :=
  if !c.IsEnabled then (none, [])
  else if events.length = 0 then (none, [])
  else
    let events := if events.length > 100 then events.take 100 else events
    match env.marshalError (Payload.bulkNotifications events) with
    | some err =>
      (some (GoError.wrap "failed to marshal bulk notification request" err), [])
    | none =>
      let req := bulkNotificationsRequest c events
      match env.newRequest "POST" req.url with
      | some err => (some (GoError.wrap "failed to create request" err), [])
      | none =>
        match env.httpDo req with
        | Except.error err =>
          (some (GoError.wrap "failed to send bulk notifications" err), [req])
        | Except.ok resp =>
          if resp.StatusCode ≠ 201 ∧ resp.StatusCode ≠ 200 then
            (some (GoError.status "notification service returned status" resp.StatusCode),
              [req])
          else (none, [req])

/-! ## The request context and the middlewares -/

/-- The function `validHeaderFieldByte` of net/textproto: the token characters. -/
def validHeaderFieldByte (b : Nat) : Bool :=
  (48 ≤ b && b ≤ 57) || (65 ≤ b && b ≤ 90) || (97 ≤ b && b ≤ 122) ||
    [33, 35, 36, 37, 38, 39, 42, 43, 45, 46, 94, 95, 96, 124, 126].contains b

/-- The case loop of `canonicalMIMEHeaderKey`: upper case at the start and after a
hyphen, lower case elsewhere. -/
def canonicalLoop : Bool → List Nat → List Nat
  | _, [] => []
  | upper, b :: rest =>
    let b1 :=
      if upper && (97 ≤ b && b ≤ 122) then b - 32
      else if !upper && (65 ≤ b && b ≤ 90) then b + 32
      else b
    b1 :: canonicalLoop (b1 == 45) rest

/-- The function `textproto.CanonicalMIMEHeaderKey`: a key with a byte that is no token
character is returned unchanged. -/
def CanonicalMIMEHeaderKey (s : String) : String :=
  if (goBytes s).all validHeaderFieldByte then
    String.mk ((canonicalLoop true (goBytes s)).map Char.ofNat)
  else s

/-- The values `c.Set` stores in the request context. -/
inductive CtxValue where
  | uuid (u : UUID)
  | str (s : String)
  deriving DecidableEq, Repr

/-- The parts of `gin.Context` the middlewares read and write: the request header map,
the keys set with `c.Set`, the response written (status and message), whether the chain
was aborted, and whether the remaining handlers were run with `c.Next`. -/
structure GinContext where
  Header : List (String × List String)
  Keys : List (String × CtxValue)
  response : Option (Nat × String)
  aborted : Bool
  nextCalled : Bool
  deriving DecidableEq, Repr

/-- The method `c.GetHeader`: the first value under the canonical form of the key. -/
def GinContext.GetHeader (c : GinContext) (key : String) : String :=
  match c.Header.lookup (CanonicalMIMEHeaderKey key) with
  | some (v :: _) => v
  | _ => ""

/-- The method `c.Set`. -/
def GinContext.Set (c : GinContext) (key : String) (value : CtxValue) : GinContext :=
  { c with Keys := (key, value) :: c.Keys }

/-- The method `c.Abort`. -/
def GinContext.Abort (c : GinContext) : GinContext :=
  { c with aborted := true }

/-- The method `c.Next`. -/
def GinContext.Next (c : GinContext) : GinContext :=
  { c with nextCalled := true }

/-- Modelled from the spec: the helper `response.Unauthorized` (package response of each
service) is missing; it answers 401 with a structured error body carrying the message. -/
def response.Unauthorized (c : GinContext) (message : String) : GinContext :=
  { c with response := some (401, message) }

/-- Splitting a character list around every space. -/
def splitSpaces : List Char → List (List Char)
  | [] => [[]]
  | ch :: rest =>
    match splitSpaces rest with
    | [] => [[ch]]
    | part :: parts => if ch = ' ' then [] :: part :: parts else (ch :: part) :: parts

/-- The call `strings.Split(s, " ")`. -/
def stringsSplit (s : String) : List String :=
  (splitSpaces s.toList).map String.mk

/-- Splitting a character list at its first space. -/
def splitFirstSpace : List Char → List (List Char)
  | [] => [[]]
  | ch :: rest =>
    if ch = ' ' then [[], rest]
    else
      match splitFirstSpace rest with
      | [] => [[ch]]
      | part :: parts => (ch :: part) :: parts

/-- The call `strings.SplitN(s, " ", 2)`. -/
def stringsSplitN2 (s : String) : List String :=
  (splitFirstSpace s.toList).map String.mk

/-- The call `strings.ToLower` on the scheme of an authorization header.  Only ASCII
letters are mapped; no other letter has a lower case among the letters of `bearer`, so the
comparison with `bearer` is the one of the source. -/
def stringsToLower (s : String) : String :=
  String.mk (s.toList.map Char.toLower)

/-- The interface `TokenValidator`: the method `ValidateToken` on a token string. -/
abbrev TokenValidator := String → Outcome (UUID × Option GoError)

/-- The `TokenValidator` that an `AuthServiceValidator` implements. -/
def AuthServiceValidator.asTokenValidator (env : Env) (v : AuthServiceValidator) :
    TokenValidator :=
  fun tokenString => (v.ValidateToken env tokenString).1

/-- The handler `AuthMiddleware(validator)` of noti-service. -/
def noti.AuthMiddleware (validator : TokenValidator) (c : GinContext) : Outcome GinContext :=
  let authHeader := c.GetHeader "Authorization"
  if authHeader = "" then
    Outcome.ret (response.Unauthorized c "No authorization header").Abort
  else
    let parts := stringsSplit authHeader
    if parts.length ≠ 2 ∨ stringsToLower (parts.getD 0 "") ≠ "bearer" then
      Outcome.ret (response.Unauthorized c "Invalid authorization header format").Abort
    else
      let tokenString := parts.getD 1 ""
      match validator tokenString with
      | Outcome.panic msg => Outcome.panic msg
      | Outcome.ret (_, some _) => Outcome.ret (response.Unauthorized c "Invalid token").Abort
      | Outcome.ret (userID, none) =>
        Outcome.ret (c.Set "user_id" (CtxValue.uuid userID)).Next

/-- The handler `AuthMiddleware(validator)` of video-service. -/
def video.AuthMiddleware (validator : TokenValidator) (c : GinContext) : Outcome GinContext :=
  let authHeader := c.GetHeader "Authorization"
  if authHeader = "" then
    Outcome.ret (response.Unauthorized c "No authorization header").Abort
  else
    let parts := stringsSplit authHeader
    if parts.length ≠ 2 ∨ stringsToLower (parts.getD 0 "") ≠ "bearer" then
      Outcome.ret (response.Unauthorized c "Invalid authorization header format").Abort
    else
      let tokenString := parts.getD 1 ""
      match validator tokenString with
      | Outcome.panic msg => Outcome.panic msg
      | Outcome.ret (_, some _) => Outcome.ret (response.Unauthorized c "Invalid token").Abort
      | Outcome.ret (userID, none) =>
        Outcome.ret ((c.Set "user_id" (CtxValue.uuid userID)).Set "token"
          (CtxValue.str tokenString)).Next

/-- The handler `AuthWithValidator(validator)` of storage-service. -/
def storage.AuthWithValidator (validator : TokenValidator) (c : GinContext) :
    Outcome GinContext :=
  let authHeader := c.GetHeader "Authorization"
  if authHeader = "" then
    Outcome.ret (response.Unauthorized c "Authorization header is required").Abort
  else
    let parts := stringsSplitN2 authHeader
    if parts.length ≠ 2 ∨ parts.getD 0 "" ≠ "Bearer" then
      Outcome.ret (response.Unauthorized c "Invalid authorization header format").Abort
    else
      let tokenString := parts.getD 1 ""
      match validator tokenString with
      | Outcome.panic msg => Outcome.panic msg
      | Outcome.ret (_, some _) =>
        Outcome.ret (response.Unauthorized c "Invalid or expired token").Abort
      | Outcome.ret (userID, none) =>
        Outcome.ret ((c.Set "user_id" (CtxValue.uuid userID)).Set "jwtToken"
          (CtxValue.str tokenString)).Next

/-- The handler `InternalAuthMiddleware(apiKey)` of noti-service. -/
def noti.InternalAuthMiddleware (apiKey : String) (c : GinContext) : GinContext :=
  let providedKey := c.GetHeader "x-internal-api-key"
  let providedKey :=
    if providedKey = "" then c.GetHeader "X-Internal-Api-Key" else providedKey
  if providedKey = "" ∨ providedKey ≠ apiKey then
    (response.Unauthorized c "Invalid internal API key").Abort
  else c.Next

/-- The token string parses under the validator's secret into a valid token whose
claims are the map `claims`: a validly signed, unexpired token. -/
def ValidToken (env : Env) (v : AuthServiceValidator) (tokenString : String)
    (claims : MapClaims) : Prop :=
  ∃ token : JwtToken, env.jwtParse tokenString v.secretKey = (some token, none) ∧
    token.Valid = true ∧ token.Claims = Claims.mapClaims claims

/-- The value of the first of the keys `sub`, `userId`, `user_id` that the claims hold,
whatever its dynamic type; `none` when the claims hold none of them. -/
def firstPresentClaim (claims : MapClaims) : Option JVal :=
  match claims.lookup "sub" with
  | some x => some x
  | none =>
    match claims.lookup "userId" with
    | some x => some x
    | none => claims.lookup "user_id"

/-- The failure `validateLocally` reports for a missing identifier. -/
def missingIdentifier : Outcome (UUID × Option GoError) :=
  Outcome.ret (UUID.Nil, some GoError.ErrTokenInvalidClaims)

/-- The events of all bulk-send calls, in the order sent. -/
def emittedEvents (calls : List (List NotificationEvent)) : List NotificationEvent :=
  calls.flatten

/-- The events of one notification type among a list of events. -/
def eventsOfType (t : NotificationType) (events : List NotificationEvent) :
    List NotificationEvent :=
  events.filter (fun e => e.Type_ == t)

/-- An identity is a newly added participant to notify: absent from the participant set
taken before the mutation, not the actor, and not the assignee after the mutation. -/
def newlyAdded (actorID : UUID) (board : Board) (existingParticipantIDs : UUIDSet)
    (id : UUID) : Bool :=
  !existingParticipantIDs.get id && id != actorID && !(board.AssigneeID == some id)

/-- One participant-added event for each target, the first taking clock reading `clock`. -/
def participantAddedEvents (env : Env) (actorID : UUID) (board : Board) (project : Project) :
    Nat → List UUID → List NotificationEvent
  | _, [] => []
  | clock, id :: rest =>
    NewBoardParticipantAddedEvent env clock actorID id project.WorkspaceID board.ID
      board.Title project.Name :: participantAddedEvents env actorID board project (clock + 1) rest

/-! ## Concrete inputs -/

/-- A well-formed identifier. -/
def uuidA : String := "123e4567-e89b-12d3-a456-426614174000"

/-- Another well-formed identifier. -/
def uuidB : String := "00112233-4455-6677-8899-aabbccddeeff"

/-- The identity `uuidA` denotes. -/
def idA : UUID := ⟨[18, 62, 69, 103, 232, 155, 18, 211, 164, 86, 66, 102, 20, 23, 64, 0]⟩

/-- The identity `uuidB` denotes. -/
def idB : UUID := ⟨[0, 17, 34, 51, 68, 85, 102, 119, 136, 153, 170, 187, 204, 221, 238, 255]⟩

/-- An environment in which every token parses as valid with the given claims and
the authority cannot be reached. -/
def envUnreachable (claims : MapClaims) : Env :=
  { jwtParse := fun _ _ => (some { Valid := true, Claims := Claims.mapClaims claims }, none)
    newRequest := fun _ _ => none
    httpDo := fun _ => Except.error (GoError.external "dial tcp: connection refused")
    decodeUserID := fun _ => Except.error (GoError.external "EOF")
    decodeWorkspaceValidation := fun _ => Except.error (GoError.external "EOF")
    now := fun _ => 0 }

/-- A validator with an authority configured. -/
def vRemote : AuthServiceValidator :=
  { authServiceURL := "http://auth-service:8080", secretKey := "secret" }

/-- Claims whose `sub` is empty while `userId` holds a well-formed identifier. -/
def claimsEmptySub : MapClaims := [("sub", JVal.str ""), ("userId", JVal.str uuidA)]

/-- Claims with both `sub` and `userId`, each a well-formed identifier. -/
def claimsSubAndUserId : MapClaims := [("sub", JVal.str uuidA), ("userId", JVal.str uuidB)]

/-- Claims whose `sub` is a string that is no identifier. -/
def claimsMalformedSub : MapClaims := [("sub", JVal.str "not-a-uuid")]

/-- Claims with none of the identifier keys. -/
def claimsNoKey : MapClaims := [("iss", JVal.str "auth-service")]

/-- The body with `isMember` true and `valid` false. -/
def bodyIsMember : String := "\x7b\"isMember\": true, \"valid\": false\x7d"

/-- The struct the decoder fills from `bodyIsMember`: absent fields keep the zero value. -/
def responseIsMember : WorkspaceValidationResponse :=
  { WorkspaceID := UUID.Nil, UserID := UUID.Nil, Valid := false, IsValid := false,
    IsMember := true }

/-- An environment whose membership service answers every request with the given status
and body, and whose decoder reads `bodyIsMember` and rejects every other body. -/
def envMember (statusCode : Nat) (body : String) : Env :=
  { jwtParse := fun _ _ => (none, some (GoError.external "token is malformed"))
    newRequest := fun _ _ => none
    httpDo := fun _ => Except.ok { StatusCode := statusCode, Body := body }
    decodeUserID := fun _ => Except.error (GoError.external "EOF")
    decodeWorkspaceValidation := fun b =>
      if b = bodyIsMember then Except.ok responseIsMember
      else Except.error (GoError.external "invalid character")
    now := fun _ => 0 }

/-- A membership client. -/
def cUser : userClient := { baseURL := "http://user-service:8080" }

/-- The actor of the board scenario. -/
def userZ : UUID := ⟨[90]⟩

/-- A participant from before the mutation. -/
def userP : UUID := ⟨[80]⟩

/-- The assignee after the mutation. -/
def userQ : UUID := ⟨[81]⟩

/-- A participant added by the mutation. -/
def userR : UUID := ⟨[82]⟩

/-- A project. -/
def projectX : Project := { WorkspaceID := idA, Name := "proj" }

/-- An enabled notification client. -/
def ncEnabled : NotiClient :=
  NotiClient.impl { baseURL := "http://noti-service:8080", internalAPIKey := "key", enabled := true }

/-- A board service with notifications enabled and the project found. -/
def svcEnabled : boardServiceImpl :=
  { notiClient := some ncEnabled
    findProject := fun _ => Except.ok projectX }

/-- The board after the mutation: assigned to `userQ`, participants `userP`, `userQ`, `userR`. -/
def boardAfter : Board :=
  { ID := idB, ProjectID := idA, Title := "task", AssigneeID := some userQ
    Participants := [⟨userP⟩, ⟨userQ⟩, ⟨userR⟩] }

/-- A request that declares an assignee update and a participant update. -/
def reqBoth : UpdateBoardRequest :=
  { AssigneeID := some userQ, Participants := some [userP, userQ, userR] }

/-- Claims whose `sub` is a number. -/
def claimsNumericSub : MapClaims := [("sub", JVal.num 12345), ("userId", JVal.str uuidA)]

/-- An event used to fill batches. -/
def eventX : NotificationEvent :=
  NewBoardParticipantAddedEvent (envUnreachable []) 0 userZ userR idA idB "task" "proj"

/-- An enabled notification client implementation. -/
def implEnabled : notiClientImpl :=
  { baseURL := "http://noti-service:8080", internalAPIKey := "key", enabled := true }

/-- An environment whose notification service answers every request with 201. -/
def envCreated : Env :=
  { jwtParse := fun _ _ => (none, some (GoError.external "token is malformed"))
    newRequest := fun _ _ => none
    httpDo := fun _ => Except.ok { StatusCode := 201, Body := "" }
    decodeUserID := fun _ => Except.error (GoError.external "EOF")
    decodeWorkspaceValidation := fun _ => Except.error (GoError.external "EOF")
    now := fun _ => 0 }

/-- A request context with a bearer token and an internal API key, nothing written yet. -/
def ctxBearer : GinContext :=
  { Header := [("Authorization", ["Bearer tok"]), ("X-Internal-Api-Key", ["key"])]
    Keys := []
    response := none
    aborted := false
    nextCalled := false }

/-- A `userId` of the 36-byte form whose last two digit pairs are not hexadecimal. -/
def userIdBadTail : String := "123e4567-e89b-12d3-a456-42661417zzzz"

/-- An environment whose authority answers 200 with a body decoding to `userIdBadTail`. -/
def envAuthorityBadTail : Env :=
  { jwtParse := fun _ _ => (none, some (GoError.external "token is malformed"))
    newRequest := fun _ _ => none
    httpDo := fun _ => Except.ok { StatusCode := 200, Body := "body" }
    decodeUserID := fun _ => Except.ok userIdBadTail
    decodeWorkspaceValidation := fun _ => Except.error (GoError.external "EOF")
    now := fun _ => 0 }

/-- Claims without `sub`, with `userId` and `user_id` both well-formed and different. -/
def claimsUserIdAndUser_id : MapClaims :=
  [("userId", JVal.str uuidB), ("user_id", JVal.str uuidA)]

/-- A validator without an authority. -/
def vLocal : AuthServiceValidator :=
  { authServiceURL := "", secretKey := "secret" }

/-! ## Lemmas on `uuid.Parse` and the claim loop -/

theorem uuidParse_empty : uuidParse "" = (UUID.Nil, some (GoError.uuidInvalidLength 0)) := by
  decide

theorem parseDashed_error (s : List Nat) (ps : List (Nat × Nat)) (u : List Nat) :
    (parseDashed s ps u).2 = none ∨ (parseDashed s ps u).2 = some GoError.uuidInvalidFormat := by
  induction ps generalizing u with
  | nil => left; rfl
  | cons p rest ih =>
    obtain ⟨i, x⟩ := p
    unfold parseDashed
    dsimp only
    split
    · right; rfl
    · exact ih _

theorem parsePlain_error (s : List Nat) (is : List Nat) (u : List Nat) :
    (parsePlain s is u).2 = none ∨ (parsePlain s is u).2 = some GoError.uuidInvalidFormat := by
  induction is generalizing u with
  | nil => left; rfl
  | cons i rest ih =>
    unfold parsePlain
    dsimp only
    split
    · right; rfl
    · exact ih _

theorem parseBody_error (s : List Nat) :
    (parseBody s).2 = none ∨ (parseBody s).2 = some GoError.uuidInvalidFormat := by
  unfold parseBody
  split
  · right; rfl
  · exact parseDashed_error _ _ _

/-- The errors of `uuid.Parse` are the errors of package uuid. -/
theorem uuidParse_error (s : String) :
    (uuidParse s).2 = none ∨ (uuidParse s).2 = some GoError.uuidInvalidFormat ∨
      (∃ h, (uuidParse s).2 = some (GoError.uuidInvalidURN h)) ∨
      (∃ n, (uuidParse s).2 = some (GoError.uuidInvalidLength n)) := by
  unfold uuidParse uuidParseBytes
  split
  · rcases parseBody_error (goBytes s) with h | h
    · exact Or.inl h
    · exact Or.inr (Or.inl h)
  · split
    · split
      · exact Or.inr (Or.inr (Or.inl ⟨_, rfl⟩))
      · rcases parseBody_error ((goBytes s).drop 9) with h | h
        · exact Or.inl h
        · exact Or.inr (Or.inl h)
    · split
      · rcases parseBody_error ((goBytes s).drop 1) with h | h
        · exact Or.inl h
        · exact Or.inr (Or.inl h)
      · split
        · rcases parsePlain_error (goBytes s) (List.range 16) UUID.Nil.bytes with h | h
          · exact Or.inl h
          · exact Or.inr (Or.inl h)
        · exact Or.inr (Or.inr (Or.inr ⟨_, rfl⟩))

theorem uuidParse_ne_invalidClaims (s : String) :
    (uuidParse s).2 ≠ some GoError.ErrTokenInvalidClaims := by
  rcases uuidParse_error s with h | h | ⟨_, h⟩ | ⟨_, h⟩ <;> rw [h] <;> simp

/-- What `validateLocally` computes on a validly signed token. -/
theorem validateLocally_of_valid (env : Env) (v : AuthServiceValidator) (tokenString : String)
    (claims : MapClaims) (h : ValidToken env v tokenString claims) :
    v.validateLocally env tokenString =
      match claimLoop claims claimKeys with
      | Outcome.panic msg => Outcome.panic msg
      | Outcome.ret userIDStr =>
        if userIDStr = "" then missingIdentifier else Outcome.ret (uuidParse userIDStr) := by
  obtain ⟨token, hp, hv, hc⟩ := h
  unfold AuthServiceValidator.validateLocally
  rw [hp]
  simp only [hv, hc, Bool.not_true, Bool.false_eq_true, if_false, missingIdentifier]

theorem claimLoop_sub (claims : MapClaims) (x : JVal)
    (h : claims.lookup "sub" = some x) : claimLoop claims claimKeys = assertString x := by
  simp [claimKeys, claimLoop, h]

theorem claimLoop_userId (claims : MapClaims) (x : JVal)
    (h0 : claims.lookup "sub" = none) (h : claims.lookup "userId" = some x) :
    claimLoop claims claimKeys = assertString x := by
  simp [claimKeys, claimLoop, h0, h]

theorem claimLoop_user_id (claims : MapClaims) (x : JVal)
    (h0 : claims.lookup "sub" = none) (h1 : claims.lookup "userId" = none)
    (h : claims.lookup "user_id" = some x) :
    claimLoop claims claimKeys = assertString x := by
  simp [claimKeys, claimLoop, h0, h1, h]

theorem claimLoop_absent (claims : MapClaims)
    (h0 : claims.lookup "sub" = none) (h1 : claims.lookup "userId" = none)
    (h2 : claims.lookup "user_id" = none) :
    claimLoop claims claimKeys = Outcome.ret "" := by
  simp [claimKeys, claimLoop, h0, h1, h2]

/-! ## The token validator -/

/-- C1: `ValidateToken` returns exactly the result of `validateLocally` whenever the remote
path does not succeed.  With an empty authority URL no request is sent and the result is the
local one; with a non-empty URL and any remote error (request construction, transport
failure, non-200 status, undecodable body, unparsable `userId`) the remote error is dropped
and the result is the local one.  Hence a token that `validateLocally` accepts is accepted
by `ValidateToken` with the same identity when the authority is configured but fails. -/
theorem ValidateToken_falls_back_to_validateLocally (env : Env) (v : AuthServiceValidator)
    (tokenString : String) :
    (v.authServiceURL = "" →
      v.ValidateToken env tokenString = (v.validateLocally env tokenString, [])) ∧
    (v.authServiceURL ≠ "" → (v.validateWithAuthService env tokenString).1.2 ≠ none →
      (v.ValidateToken env tokenString).1 = v.validateLocally env tokenString) ∧
    (env.newRequest "POST" (v.authServiceURL ++ "/api/auth/validate") = none →
      ((∀ e, env.httpDo (authValidateRequest v tokenString) = Except.error e →
          (v.validateWithAuthService env tokenString).1.2 = some e) ∧
       (∀ resp, env.httpDo (authValidateRequest v tokenString) = Except.ok resp →
          (resp.StatusCode ≠ 200 → (v.validateWithAuthService env tokenString).1.2 =
            some GoError.ErrTokenInvalidClaims) ∧
          (resp.StatusCode = 200 → ∀ e, env.decodeUserID resp.Body = Except.error e →
            (v.validateWithAuthService env tokenString).1.2 = some e) ∧
          (resp.StatusCode = 200 → ∀ userID, env.decodeUserID resp.Body = Except.ok userID →
            (uuidParse userID).2 ≠ none →
            (v.validateWithAuthService env tokenString).1.2 ≠ none)))) ∧
    (∀ id, v.validateLocally env tokenString = Outcome.ret (id, none) →
      (v.authServiceURL = "" ∨ (v.validateWithAuthService env tokenString).1.2 ≠ none) →
      (v.ValidateToken env tokenString).1 = Outcome.ret (id, none)) := by
  have hlocal : v.authServiceURL = "" →
      v.ValidateToken env tokenString = (v.validateLocally env tokenString, []) := by
    intro h
    simp [AuthServiceValidator.ValidateToken, h]
  have hremote : v.authServiceURL ≠ "" →
      (v.validateWithAuthService env tokenString).1.2 ≠ none →
      (v.ValidateToken env tokenString).1 = v.validateLocally env tokenString := by
    intro h herr
    unfold AuthServiceValidator.ValidateToken
    rw [if_pos h]
    split
    · rename_i userID calls heq
      rw [heq] at herr
      exact absurd rfl herr
    · rfl
  refine ⟨hlocal, hremote, ?_, ?_⟩
  · intro hreq
    refine ⟨?_, ?_⟩
    · intro e he
      simp [AuthServiceValidator.validateWithAuthService, hreq, he]
    · intro resp hresp
      refine ⟨?_, ?_, ?_⟩
      · intro hs
        simp [AuthServiceValidator.validateWithAuthService, hreq, hresp, hs]
      · intro hs e he
        simp [AuthServiceValidator.validateWithAuthService, hreq, hresp, hs, he]
      · intro hs userID hu hp
        simp [AuthServiceValidator.validateWithAuthService, hreq, hresp, hs, hu, hp]
  · intro id hid hcase
    rcases hcase with h | h
    · rw [hlocal h]
      exact hid
    · by_cases hurl : v.authServiceURL = ""
      · rw [hlocal hurl]
        exact hid
      · rw [hremote hurl h]
        exact hid

/-- A token valid under the local secret is accepted although the configured authority
cannot be reached. -/
theorem ValidateToken_falls_back_to_validateLocally_witness :
    (vRemote.ValidateToken (envUnreachable claimsSubAndUserId) "tok").1 =
      Outcome.ret (idA, none) :=
  (ValidateToken_falls_back_to_validateLocally (envUnreachable claimsSubAndUserId) vRemote
    "tok").2.2.2 idA (by decide) (Or.inr (by decide))

/-- C2: on a validly signed token whose claims hold both `sub` and `userId` as strings, with
`sub` a well-formed identifier, `validateLocally` resolves to the identity parsed from `sub`.
More generally the keys are consulted in the order `sub`, `userId`, `user_id`.  A
well-formed `sub` decides the result whatever `userId` and `user_id` hold; when `sub` is
absent a well-formed `userId` decides it whatever `user_id` holds; when `sub` and `userId`
are absent a well-formed `user_id` decides it.  Two validly signed tokens that agree on the
first key that is present get the same result, whatever the keys of lower priority hold. -/
theorem validateLocally_key_priority (env : Env) (v : AuthServiceValidator)
    (tokenString : String) (claims : MapClaims) (h : ValidToken env v tokenString claims) :
    (∀ sub userId id, claims.lookup "sub" = some (JVal.str sub) →
      claims.lookup "userId" = some (JVal.str userId) → uuidParse sub = (id, none) →
      v.validateLocally env tokenString = Outcome.ret (id, none)) ∧
    (∀ sub id, claims.lookup "sub" = some (JVal.str sub) → uuidParse sub = (id, none) →
      v.validateLocally env tokenString = Outcome.ret (id, none)) ∧
    (∀ userId id, claims.lookup "sub" = none →
      claims.lookup "userId" = some (JVal.str userId) → uuidParse userId = (id, none) →
      v.validateLocally env tokenString = Outcome.ret (id, none)) ∧
    (∀ user_id id, claims.lookup "sub" = none → claims.lookup "userId" = none →
      claims.lookup "user_id" = some (JVal.str user_id) → uuidParse user_id = (id, none) →
      v.validateLocally env tokenString = Outcome.ret (id, none)) ∧
    (∀ tokenString2 claims2, ValidToken env v tokenString2 claims2 →
      ((claims.lookup "sub").isSome = true → claims2.lookup "sub" = claims.lookup "sub" →
        v.validateLocally env tokenString2 = v.validateLocally env tokenString) ∧
      (claims.lookup "sub" = none → claims2.lookup "sub" = none →
        (claims.lookup "userId").isSome = true →
        claims2.lookup "userId" = claims.lookup "userId" →
        v.validateLocally env tokenString2 = v.validateLocally env tokenString) ∧
      (claims.lookup "sub" = none → claims2.lookup "sub" = none →
        claims.lookup "userId" = none → claims2.lookup "userId" = none →
        claims2.lookup "user_id" = claims.lookup "user_id" →
        v.validateLocally env tokenString2 = v.validateLocally env tokenString)) := by
  have hwf : ∀ (s : String) (id : UUID), uuidParse s = (id, none) →
      (match assertString (JVal.str s) with
        | Outcome.panic msg => Outcome.panic msg
        | Outcome.ret userIDStr =>
          if userIDStr = "" then missingIdentifier else Outcome.ret (uuidParse userIDStr)) =
        Outcome.ret (id, none) := by
    intro s id hparse
    have hne : s ≠ "" := by
      intro he
      rw [he, uuidParse_empty] at hparse
      simp at hparse
    simp [assertString, hne, hparse]
  refine ⟨?_, ?_, ?_, ?_, ?_⟩
  · intro sub userId id hsub _ hparse
    rw [validateLocally_of_valid env v tokenString claims h, claimLoop_sub claims _ hsub]
    exact hwf sub id hparse
  · intro sub id hsub hparse
    rw [validateLocally_of_valid env v tokenString claims h, claimLoop_sub claims _ hsub]
    exact hwf sub id hparse
  · intro userId id h0 huser hparse
    rw [validateLocally_of_valid env v tokenString claims h,
      claimLoop_userId claims _ h0 huser]
    exact hwf userId id hparse
  · intro user_id id h0 h1 huser hparse
    rw [validateLocally_of_valid env v tokenString claims h,
      claimLoop_user_id claims _ h0 h1 huser]
    exact hwf user_id id hparse
  · intro tokenString2 claims2 h2
    rw [validateLocally_of_valid env v tokenString claims h,
      validateLocally_of_valid env v tokenString2 claims2 h2]
    refine ⟨?_, ?_, ?_⟩
    · intro hs heq
      obtain ⟨x, hx⟩ := Option.isSome_iff_exists.mp hs
      rw [claimLoop_sub claims x hx, claimLoop_sub claims2 x (heq.trans hx)]
    · intro h0 h0' hs heq
      obtain ⟨x, hx⟩ := Option.isSome_iff_exists.mp hs
      rw [claimLoop_userId claims x h0 hx, claimLoop_userId claims2 x h0' (heq.trans hx)]
    · intro h0 h0' h1 h1' heq
      cases hx : claims.lookup "user_id" with
      | none =>
        rw [claimLoop_absent claims h0 h1 hx, claimLoop_absent claims2 h0' h1' (heq.trans hx)]
      | some x =>
        rw [claimLoop_user_id claims x h0 h1 hx,
          claimLoop_user_id claims2 x h0' h1' (heq.trans hx)]

/-- A token with both `sub` and `userId` resolves to the identity of `sub`; a token with
`userId` and `user_id` but no `sub` resolves to the identity of `userId`. -/
theorem validateLocally_key_priority_witness :
    vLocal.validateLocally (envUnreachable claimsSubAndUserId) "tok" =
      Outcome.ret (idA, none) ∧
    vLocal.validateLocally (envUnreachable claimsUserIdAndUser_id) "tok" =
      Outcome.ret (idB, none) :=
  ⟨(validateLocally_key_priority (envUnreachable claimsSubAndUserId) vLocal "tok"
      claimsSubAndUserId ⟨_, rfl, rfl, rfl⟩).1 uuidA uuidB idA rfl rfl (by decide),
   (validateLocally_key_priority (envUnreachable claimsUserIdAndUser_id) vLocal "tok"
      claimsUserIdAndUser_id ⟨_, rfl, rfl, rfl⟩).2.2.1 uuidB idB rfl rfl (by decide)⟩

/-- C3, as stated, fails: a validly signed token whose `sub` is the empty string and whose
`userId` is a well-formed identifier is rejected for a missing identifier; the identity of
`userId` is not returned. -/
theorem validateLocally_empty_sub_rejected :
    ValidToken (envUnreachable claimsEmptySub) vLocal "tok" claimsEmptySub ∧
    claimsEmptySub.lookup "sub" = some (JVal.str "") ∧
    claimsEmptySub.lookup "userId" = some (JVal.str uuidA) ∧
    uuidParse uuidA = (idA, none) ∧
    vLocal.validateLocally (envUnreachable claimsEmptySub) "tok" =
      Outcome.ret (UUID.Nil, some GoError.ErrTokenInvalidClaims) ∧
    vLocal.validateLocally (envUnreachable claimsEmptySub) "tok" ≠ Outcome.ret (idA, none) :=
  ⟨⟨_, rfl, rfl, rfl⟩, rfl, rfl, by decide, by decide, by decide⟩

/-- The claim loop yields the first present value through the unchecked assertion. -/
theorem claimLoop_firstPresentClaim (claims : MapClaims) :
    claimLoop claims claimKeys =
      match firstPresentClaim claims with
      | none => Outcome.ret ""
      | some x => assertString x := by
  unfold firstPresentClaim
  cases h0 : claims.lookup "sub" with
  | some x => exact claimLoop_sub claims x h0
  | none =>
    cases h1 : claims.lookup "userId" with
    | some x => exact claimLoop_userId claims x h0 h1
    | none =>
      cases h2 : claims.lookup "user_id" with
      | some x => exact claimLoop_user_id claims x h0 h1 h2
      | none => exact claimLoop_absent claims h0 h1 h2

/-- C3, amended: `validateLocally` takes the value of the first key, in the order `sub`,
`userId`, `user_id`, that is present, whether or not it is empty.  When that value is the
empty string the result is the missing-identifier failure, whatever the later keys hold;
when it is a non-empty string the result is that of `uuid.Parse` on it, which is never the
missing-identifier failure; when it is not a string the unchecked assertion aborts; when
none of the three keys is present the result is the missing-identifier failure.  Hence,
for every claims map, validation fails for a missing identifier exactly when none of the
three keys is present or the first present one holds the empty string. -/
theorem validateLocally_first_present_key (env : Env) (v : AuthServiceValidator)
    (tokenString : String) (claims : MapClaims) (h : ValidToken env v tokenString claims) :
    (∀ s, claims.lookup "sub" = some (JVal.str s) →
      v.validateLocally env tokenString =
        if s = "" then missingIdentifier else Outcome.ret (uuidParse s)) ∧
    (∀ s, claims.lookup "sub" = none → claims.lookup "userId" = some (JVal.str s) →
      v.validateLocally env tokenString =
        if s = "" then missingIdentifier else Outcome.ret (uuidParse s)) ∧
    (∀ s, claims.lookup "sub" = none → claims.lookup "userId" = none →
      claims.lookup "user_id" = some (JVal.str s) →
      v.validateLocally env tokenString =
        if s = "" then missingIdentifier else Outcome.ret (uuidParse s)) ∧
    (claims.lookup "sub" = none → claims.lookup "userId" = none →
      claims.lookup "user_id" = none →
      v.validateLocally env tokenString = missingIdentifier) ∧
    (∀ s : String, Outcome.ret (uuidParse s) ≠ missingIdentifier) ∧
    (v.validateLocally env tokenString =
      match firstPresentClaim claims with
      | none => missingIdentifier
      | some (JVal.str s) => if s = "" then missingIdentifier else Outcome.ret (uuidParse s)
      | some _ => Outcome.panic "interface conversion: interface is not string") ∧
    (v.validateLocally env tokenString = missingIdentifier ↔
      (claims.lookup "sub" = none ∧ claims.lookup "userId" = none ∧
        claims.lookup "user_id" = none) ∨
      firstPresentClaim claims = some (JVal.str "")) := by
  have hparse : ∀ s : String, Outcome.ret (uuidParse s) ≠ missingIdentifier := by
    intro s hs
    have h2 : (uuidParse s).2 = some GoError.ErrTokenInvalidClaims := by
      have := congrArg (fun o => match o with
        | Outcome.ret r => r.2
        | Outcome.panic _ => none) hs
      simpa [missingIdentifier] using this
    exact uuidParse_ne_invalidClaims s h2
  have hfirst : v.validateLocally env tokenString =
      match firstPresentClaim claims with
      | none => missingIdentifier
      | some (JVal.str s) => if s = "" then missingIdentifier else Outcome.ret (uuidParse s)
      | some _ => Outcome.panic "interface conversion: interface is not string" := by
    rw [validateLocally_of_valid env v tokenString claims h, claimLoop_firstPresentClaim]
    cases hf : firstPresentClaim claims with
    | none => rfl
    | some x => cases x <;> rfl
  have hnone : firstPresentClaim claims = none ↔
      (claims.lookup "sub" = none ∧ claims.lookup "userId" = none ∧
        claims.lookup "user_id" = none) := by
    unfold firstPresentClaim
    cases h0 : claims.lookup "sub" with
    | some x => simp
    | none =>
      cases h1 : claims.lookup "userId" with
      | some x => simp
      | none => simp
  refine ⟨?_, ?_, ?_, ?_, hparse, hfirst, ?_⟩
  · intro s hs
    rw [validateLocally_of_valid env v tokenString claims h, claimLoop_sub claims _ hs]
    rfl
  · intro s h0 hs
    rw [validateLocally_of_valid env v tokenString claims h, claimLoop_userId claims _ h0 hs]
    rfl
  · intro s h0 h1 hs
    rw [validateLocally_of_valid env v tokenString claims h,
      claimLoop_user_id claims _ h0 h1 hs]
    rfl
  · intro h0 h1 h2
    rw [validateLocally_of_valid env v tokenString claims h, claimLoop_absent claims h0 h1 h2]
    rfl
  · rw [hfirst, ← hnone]
    constructor
    · intro hm
      cases hf : firstPresentClaim claims with
      | none => exact Or.inl rfl
      | some x =>
        rw [hf] at hm
        cases x with
        | str s =>
          by_cases hs : s = ""
          · exact Or.inr (by rw [hs])
          · simp only [hs, if_false] at hm
            exact absurd hm (hparse s)
        | num n => exact absurd hm (by simp [missingIdentifier])
        | bool b => exact absurd hm (by simp [missingIdentifier])
        | null => exact absurd hm (by simp [missingIdentifier])
        | arr items => exact absurd hm (by simp [missingIdentifier])
        | obj fields => exact absurd hm (by simp [missingIdentifier])
    · rintro (hf | hf)
      · rw [hf]
      · rw [hf]
        simp

/-- An empty `sub` gives the missing-identifier failure although `userId` is well-formed. -/
theorem validateLocally_first_present_key_witness :
    vLocal.validateLocally (envUnreachable claimsEmptySub) "tok" = missingIdentifier :=
  (validateLocally_first_present_key (envUnreachable claimsEmptySub) vLocal "tok"
    claimsEmptySub ⟨_, rfl, rfl, rfl⟩).1 "" rfl

/-- C4, as stated, fails: a validly signed token whose selected claim is a string that is no
identifier fails with the length error of package uuid, while a token with none of the keys
fails with `jwt.ErrTokenInvalidClaims`; the two errors differ. -/
theorem validateLocally_malformed_error_differs :
    ValidToken (envUnreachable claimsMalformedSub) vLocal "tok" claimsMalformedSub ∧
    ValidToken (envUnreachable claimsNoKey) vLocal "tok" claimsNoKey ∧
    vLocal.validateLocally (envUnreachable claimsMalformedSub) "tok" =
      Outcome.ret (UUID.Nil, some (GoError.uuidInvalidLength 10)) ∧
    vLocal.validateLocally (envUnreachable claimsNoKey) "tok" =
      Outcome.ret (UUID.Nil, some GoError.ErrTokenInvalidClaims) ∧
    vLocal.validateLocally (envUnreachable claimsMalformedSub) "tok" ≠
      vLocal.validateLocally (envUnreachable claimsNoKey) "tok" :=
  ⟨⟨_, rfl, rfl, rfl⟩, ⟨_, rfl, rfl, rfl⟩, by decide, by decide, by decide⟩

/-- C4, amended: on a validly signed token `validateLocally` fails in both cases, with
different errors.  When none of the keys `sub`, `userId`, `user_id` is present the error is
`jwt.ErrTokenInvalidClaims`; when the selected claim value is a non-empty string that does
not parse as an identifier the result is that of `uuid.Parse`, whose error is one of package
uuid (invalid format, invalid urn head, invalid length) and never
`jwt.ErrTokenInvalidClaims`. -/
theorem validateLocally_missing_or_malformed (env : Env) (v : AuthServiceValidator)
    (tokenString : String) (claims : MapClaims) (h : ValidToken env v tokenString claims) :
    (claims.lookup "sub" = none → claims.lookup "userId" = none →
      claims.lookup "user_id" = none →
      v.validateLocally env tokenString =
        Outcome.ret (UUID.Nil, some GoError.ErrTokenInvalidClaims)) ∧
    (∀ s, claimLoop claims claimKeys = Outcome.ret s → s ≠ "" → (uuidParse s).2 ≠ none →
      v.validateLocally env tokenString = Outcome.ret (uuidParse s) ∧
      ∃ e, (uuidParse s).2 = some e ∧ e ≠ GoError.ErrTokenInvalidClaims ∧
        (e = GoError.uuidInvalidFormat ∨ (∃ p, e = GoError.uuidInvalidURN p) ∨
          ∃ n, e = GoError.uuidInvalidLength n)) := by
  rw [validateLocally_of_valid env v tokenString claims h]
  refine ⟨?_, ?_⟩
  · intro h0 h1 h2
    rw [claimLoop_absent claims h0 h1 h2]
    rfl
  · intro s hs hne herr
    rw [hs]
    refine ⟨by simp [hne], ?_⟩
    rcases uuidParse_error s with he | he | ⟨p, he⟩ | ⟨n, he⟩
    · exact absurd he herr
    · exact ⟨_, he, by simp, Or.inl rfl⟩
    · exact ⟨_, he, by simp, Or.inr (Or.inl ⟨p, rfl⟩)⟩
    · exact ⟨_, he, by simp, Or.inr (Or.inr ⟨n, rfl⟩)⟩

/-- A malformed `sub` fails with the length error of package uuid. -/
theorem validateLocally_missing_or_malformed_witness :
    vLocal.validateLocally (envUnreachable claimsMalformedSub) "tok" =
      Outcome.ret (uuidParse "not-a-uuid") :=
  ((validateLocally_missing_or_malformed (envUnreachable claimsMalformedSub) vLocal "tok"
    claimsMalformedSub ⟨_, rfl, rfl, rfl⟩).2 "not-a-uuid" rfl (by decide) (by decide)).1

/-! ## The membership client -/

/-- C5: on an HTTP 200 response whose body decodes as a `WorkspaceValidationResponse`,
`ValidateWorkspaceMember` returns the disjunction of the fields `valid`, `isValid` and
`isMember` with a nil error: the result is true as soon as one field is true and false
only if all three are false (a field absent from the body is false in the decoded struct). -/
theorem ValidateWorkspaceMember_ok_is_disjunction (env : Env) (c : userClient)
    (workspaceID userID : UUID) (token : String) (resp : HttpResponse)
    (response : WorkspaceValidationResponse)
    (hreq : env.newRequest "GET" (validateMemberRequest c workspaceID userID token).url = none)
    (hdo : env.httpDo (validateMemberRequest c workspaceID userID token) = Except.ok resp)
    (hstatus : resp.StatusCode = 200)
    (hdecode : env.decodeWorkspaceValidation resp.Body = Except.ok response) :
    c.ValidateWorkspaceMember env workspaceID userID token =
      (response.Valid || response.IsValid || response.IsMember, none) ∧
    ((c.ValidateWorkspaceMember env workspaceID userID token).1 = true ↔
      (response.Valid = true ∨ response.IsValid = true ∨ response.IsMember = true)) ∧
    ((c.ValidateWorkspaceMember env workspaceID userID token).1 = false ↔
      (response.Valid = false ∧ response.IsValid = false ∧ response.IsMember = false)) := by
  have hres : c.ValidateWorkspaceMember env workspaceID userID token =
      (response.Valid || response.IsValid || response.IsMember, none) := by
    simp [userClient.ValidateWorkspaceMember, hreq, hdo, hstatus, hdecode]
  rw [hres]
  refine ⟨rfl, ?_, ?_⟩
  · simp [or_assoc]
  · simp [and_assoc]

/-- The body with `isMember` true and `valid` false yields true. -/
theorem ValidateWorkspaceMember_ok_is_disjunction_witness :
    cUser.ValidateWorkspaceMember (envMember 200 bodyIsMember) idA idB "tok" = (true, none) :=
  (ValidateWorkspaceMember_ok_is_disjunction (envMember 200 bodyIsMember) cUser idA idB "tok"
    { StatusCode := 200, Body := bodyIsMember } responseIsMember rfl rfl rfl rfl).1

/-- C6: on a response with status 403 or 404, whatever its body, `ValidateWorkspaceMember`
returns false with a nil error. -/
theorem ValidateWorkspaceMember_forbidden_or_not_found (env : Env) (c : userClient)
    (workspaceID userID : UUID) (token : String) (resp : HttpResponse)
    (hreq : env.newRequest "GET" (validateMemberRequest c workspaceID userID token).url = none)
    (hdo : env.httpDo (validateMemberRequest c workspaceID userID token) = Except.ok resp)
    (hstatus : resp.StatusCode = 403 ∨ resp.StatusCode = 404) :
    c.ValidateWorkspaceMember env workspaceID userID token = (false, none) := by
  have h200 : resp.StatusCode ≠ 200 := by
    rcases hstatus with h | h <;> rw [h] <;> decide
  simp [userClient.ValidateWorkspaceMember, hreq, hdo, h200, hstatus]

/-- A 404 response whose body would decode to a member is still a definite non-member. -/
theorem ValidateWorkspaceMember_forbidden_or_not_found_witness :
    cUser.ValidateWorkspaceMember (envMember 404 bodyIsMember) idA idB "tok" = (false, none) :=
  ValidateWorkspaceMember_forbidden_or_not_found (envMember 404 bodyIsMember) cUser idA idB
    "tok" { StatusCode := 404, Body := bodyIsMember } rfl rfl (Or.inr rfl)

/-- C7: `ValidateWorkspaceMember` is fail-closed.  Whenever the returned error is non-nil
the returned boolean is false; an error is returned for every failure to build the request,
every transport failure, every status other than 200, 403 and 404, and every 200 response
whose body fails to decode; and the boolean is true only on a 200 response that decoded. -/
theorem ValidateWorkspaceMember_fail_closed (env : Env) (c : userClient)
    (workspaceID userID : UUID) (token : String) :
    ((c.ValidateWorkspaceMember env workspaceID userID token).2 ≠ none →
      (c.ValidateWorkspaceMember env workspaceID userID token).1 = false) ∧
    (∀ e, env.newRequest "GET" (validateMemberRequest c workspaceID userID token).url = some e →
      c.ValidateWorkspaceMember env workspaceID userID token =
        (false, some (GoError.wrap "failed to create request" e))) ∧
    (env.newRequest "GET" (validateMemberRequest c workspaceID userID token).url = none →
      (∀ e, env.httpDo (validateMemberRequest c workspaceID userID token) = Except.error e →
        c.ValidateWorkspaceMember env workspaceID userID token =
          (false, some (GoError.wrap "failed to call user-service" e))) ∧
      (∀ resp, env.httpDo (validateMemberRequest c workspaceID userID token) = Except.ok resp →
        (resp.StatusCode ≠ 200 → resp.StatusCode ≠ 403 → resp.StatusCode ≠ 404 →
          c.ValidateWorkspaceMember env workspaceID userID token =
            (false, some (GoError.status "user-service returned status" resp.StatusCode))) ∧
        (resp.StatusCode = 200 → ∀ e, env.decodeWorkspaceValidation resp.Body = Except.error e →
          c.ValidateWorkspaceMember env workspaceID userID token =
            (false, some (GoError.wrap "failed to decode response" e))))) ∧
    ((c.ValidateWorkspaceMember env workspaceID userID token).1 = true →
      ∃ resp response,
        env.newRequest "GET" (validateMemberRequest c workspaceID userID token).url = none ∧
        env.httpDo (validateMemberRequest c workspaceID userID token) = Except.ok resp ∧
        resp.StatusCode = 200 ∧
        env.decodeWorkspaceValidation resp.Body = Except.ok response ∧
        (c.ValidateWorkspaceMember env workspaceID userID token).2 = none) := by
  refine ⟨?_, ?_, ?_, ?_⟩
  · unfold userClient.ValidateWorkspaceMember
    dsimp only
    split
    · intro _; rfl
    · split
      · intro _; rfl
      · split
        · split
          · intro _; rfl
          · intro _; rfl
        · split
          · intro _; rfl
          · intro hne; exact absurd rfl hne
  · intro e he
    simp [userClient.ValidateWorkspaceMember, he]
  · intro hreq
    refine ⟨?_, ?_⟩
    · intro e he
      simp [userClient.ValidateWorkspaceMember, hreq, he]
    · intro resp hresp
      refine ⟨?_, ?_⟩
      · intro h1 h2 h3
        simp [userClient.ValidateWorkspaceMember, hreq, hresp, h1, h2, h3]
      · intro h1 e he
        simp [userClient.ValidateWorkspaceMember, hreq, hresp, h1, he]
  · unfold userClient.ValidateWorkspaceMember
    dsimp only
    split
    · intro h; simp at h
    · rename_i hreq
      split
      · intro h; simp at h
      · rename_i resp hresp
        split
        · split
          · intro h; simp at h
          · intro h; simp at h
        · rename_i hs
          split
          · intro h; simp at h
          · rename_i response hdec
            intro _
            exact ⟨resp, response, hreq, hresp, not_not.mp hs, hdec, rfl⟩

/-- A server error is reported as an error and denies membership. -/
theorem ValidateWorkspaceMember_fail_closed_witness :
    (cUser.ValidateWorkspaceMember (envMember 500 bodyIsMember) idA idB "tok").1 = false :=
  (ValidateWorkspaceMember_fail_closed (envMember 500 bodyIsMember) cUser idA idB "tok").1
    (by decide)

/-! ## The board update notifier -/

theorem participantLoop_eq (env : Env) (actorID : UUID) (board : Board)
    (existingParticipantIDs : UUIDSet) (project : Project) (ps : List Participant)
    (acc : List NotificationEvent) :
    participantLoop env actorID board existingParticipantIDs project ps acc =
      acc ++ participantAddedEvents env actorID board project acc.length
        ((ps.map (fun p => p.UserID)).filter (newlyAdded actorID board existingParticipantIDs)) := by
  induction ps generalizing acc with
  | nil => simp [participantLoop, participantAddedEvents]
  | cons p rest ih =>
    have hassignee : (match board.AssigneeID with
        | some assigneeID => p.UserID == assigneeID
        | none => false) = (board.AssigneeID == some p.UserID) := by
      cases hA : board.AssigneeID with
      | none => simp
      | some a => simp [eq_comm]
    unfold participantLoop
    rw [hassignee, List.map_cons, List.filter_cons]
    by_cases h1 : (!existingParticipantIDs.get p.UserID && p.UserID != actorID) = true
    · by_cases h2 : (board.AssigneeID == some p.UserID) = true
      · have hn : newlyAdded actorID board existingParticipantIDs p.UserID = false := by
          simp [newlyAdded, h2]
        rw [if_pos h1, if_pos h2, hn, ih]
        simp
      · have hn : newlyAdded actorID board existingParticipantIDs p.UserID = true := by
          simp only [Bool.not_eq_true] at h2
          simp only [newlyAdded, h1, h2, Bool.not_false, Bool.and_self]
        rw [if_pos h1, if_neg h2, hn, ih]
        simp [participantAddedEvents]
    · have hn : newlyAdded actorID board existingParticipantIDs p.UserID = false := by
        simp only [Bool.not_eq_true] at h1
        simp only [newlyAdded, h1, Bool.false_and]
      rw [if_neg h1, hn, ih]
      simp

theorem participantAddedEvents_targets (env : Env) (actorID : UUID) (board : Board)
    (project : Project) (clock : Nat) (targets : List UUID) :
    (participantAddedEvents env actorID board project clock targets).map
      (fun e => e.TargetUserID) = targets := by
  induction targets generalizing clock with
  | nil => rfl
  | cons id rest ih => simp [participantAddedEvents, NewBoardParticipantAddedEvent, ih]

theorem participantAddedEvents_mem (env : Env) (actorID : UUID) (board : Board)
    (project : Project) (clock : Nat) (targets : List UUID) (e : NotificationEvent)
    (he : e ∈ participantAddedEvents env actorID board project clock targets) :
    e.Type_ = NotificationTypeBoardParticipantAdded ∧ e.ActorID = actorID ∧
      e.TargetUserID ∈ targets := by
  induction targets generalizing clock with
  | nil => simp [participantAddedEvents] at he
  | cons id rest ih =>
    simp only [participantAddedEvents, List.mem_cons] at he
    rcases he with he | he
    · subst he
      simp [NewBoardParticipantAddedEvent]
    · obtain ⟨h1, h2, h3⟩ := ih _ he
      exact ⟨h1, h2, List.mem_cons_of_mem _ h3⟩

/-- The assignee block on the empty batch: one assigned event or none. -/
theorem assigneeStep_nil (env : Env) (actorID : UUID) (board : Board)
    (oldAssigneeID : Option UUID) (project : Project) :
    assigneeStep env actorID board oldAssigneeID project [] =
      match board.AssigneeID with
      | some newID =>
        if board.AssigneeID ≠ oldAssigneeID ∧ newID ≠ actorID then
          [NewBoardAssignedEvent env 0 actorID newID project.WorkspaceID board.ID board.Title
            project.Name]
        else []
      | none => [] := by
  unfold assigneeStep
  cases hA : board.AssigneeID with
  | none => rfl
  | some newID =>
    cases oldAssigneeID with
    | none => simp [assigneeChanged]
    | some o =>
      by_cases ho : o = newID
      · simp [assigneeChanged, ho]
      · have ho2 : ¬ newID = o := fun h => ho h.symm
        simp [assigneeChanged, ho, ho2]

/-- The batch is the assigned part followed by the participant-added part. -/
theorem boardUpdatedBatch_eq (env : Env) (actorID : UUID) (board : Board)
    (oldAssigneeID : Option UUID) (existingParticipantIDs : UUIDSet)
    (req : UpdateBoardRequest) (project : Project) :
    boardUpdatedBatch env actorID board oldAssigneeID existingParticipantIDs req project =
      (if req.AssigneeID.isSome then assigneeStep env actorID board oldAssigneeID project []
        else []) ++
      (if req.Participants.isSome then
        participantAddedEvents env actorID board project
          (if req.AssigneeID.isSome then assigneeStep env actorID board oldAssigneeID project []
            else []).length
          ((board.Participants.map (fun p => p.UserID)).filter
            (newlyAdded actorID board existingParticipantIDs))
        else []) := by
  unfold boardUpdatedBatch
  by_cases hp : req.Participants.isSome = true
  · simp only [hp, if_true]
    rw [participantLoop_eq]
  · simp [hp]

/-- With notifications enabled and the project found, the events sent are the batch. -/
theorem emittedEvents_enabled (env : Env) (s : boardServiceImpl) (nc : NotiClient)
    (project : Project) (actorID : UUID) (board : Board) (oldAssigneeID : Option UUID)
    (existingParticipantIDs : UUIDSet) (req : UpdateBoardRequest)
    (hclient : s.notiClient = some nc) (henabled : nc.IsEnabled = true)
    (hproject : s.findProject board.ProjectID = Except.ok project) :
    emittedEvents (s.sendBoardUpdatedNotifications env actorID board oldAssigneeID
      existingParticipantIDs req) =
      boardUpdatedBatch env actorID board oldAssigneeID existingParticipantIDs req project := by
  unfold boardServiceImpl.sendBoardUpdatedNotifications emittedEvents
  simp only [hclient, henabled, hproject, Bool.not_true, Bool.false_eq_true, if_false]
  split
  · simp
  · rename_i h
    have : boardUpdatedBatch env actorID board oldAssigneeID existingParticipantIDs req
        project = [] := by
      apply List.eq_nil_of_length_eq_zero
      omega
    simp [this]

/-- Every event sent belongs to the batch built for some project. -/
theorem emittedEvents_mem (env : Env) (s : boardServiceImpl) (actorID : UUID) (board : Board)
    (oldAssigneeID : Option UUID) (existingParticipantIDs : UUIDSet)
    (req : UpdateBoardRequest) (e : NotificationEvent)
    (he : e ∈ emittedEvents (s.sendBoardUpdatedNotifications env actorID board oldAssigneeID
      existingParticipantIDs req)) :
    ∃ project, e ∈ boardUpdatedBatch env actorID board oldAssigneeID existingParticipantIDs
      req project := by
  unfold boardServiceImpl.sendBoardUpdatedNotifications emittedEvents at he
  split at he
  · simp at he
  · split at he
    · simp at he
    · split at he
      · simp at he
      · rename_i project _
        dsimp only at he
        split at he
        · exact ⟨project, by simpa using he⟩
        · simp at he

theorem assigneeStep_nil_mem (env : Env) (actorID : UUID) (board : Board)
    (oldAssigneeID : Option UUID) (project : Project) (e : NotificationEvent)
    (he : e ∈ assigneeStep env actorID board oldAssigneeID project []) :
    e.Type_ = NotificationTypeBoardAssigned ∧ e.ActorID = actorID ∧
      e.TargetUserID ≠ actorID ∧ board.AssigneeID = some e.TargetUserID := by
  rw [assigneeStep_nil] at he
  cases hA : board.AssigneeID with
  | none => simp [hA] at he
  | some newID =>
    simp only [hA] at he
    split at he
    · rename_i hc
      simp only [List.mem_singleton] at he
      subst he
      exact ⟨rfl, rfl, hc.2, rfl⟩
    · simp at he

/-- The assigned events of the batch are those of the assignee block. -/
theorem eventsOfType_assigned_batch (env : Env) (actorID : UUID) (board : Board)
    (oldAssigneeID : Option UUID) (existingParticipantIDs : UUIDSet)
    (req : UpdateBoardRequest) (project : Project) :
    eventsOfType NotificationTypeBoardAssigned
      (boardUpdatedBatch env actorID board oldAssigneeID existingParticipantIDs req project) =
      if req.AssigneeID.isSome then assigneeStep env actorID board oldAssigneeID project []
      else [] := by
  rw [boardUpdatedBatch_eq]
  unfold eventsOfType
  rw [List.filter_append]
  have h1 : List.filter (fun e => e.Type_ == NotificationTypeBoardAssigned)
      (if req.AssigneeID.isSome then assigneeStep env actorID board oldAssigneeID project []
        else []) =
      (if req.AssigneeID.isSome then assigneeStep env actorID board oldAssigneeID project []
        else []) := by
    rw [List.filter_eq_self]
    intro e he
    split at he
    · simp [(assigneeStep_nil_mem env actorID board oldAssigneeID project e he).1]
    · simp at he
  have h2 : List.filter (fun e => e.Type_ == NotificationTypeBoardAssigned)
      (if req.Participants.isSome then
        participantAddedEvents env actorID board project
          (if req.AssigneeID.isSome then assigneeStep env actorID board oldAssigneeID project []
            else []).length
          ((board.Participants.map (fun p => p.UserID)).filter
            (newlyAdded actorID board existingParticipantIDs))
        else []) = [] := by
    rw [List.filter_eq_nil_iff]
    intro e he
    split at he
    · rw [(participantAddedEvents_mem env actorID board project _ _ e he).1]
      decide
    · simp at he
  rw [h1, h2, List.append_nil]

/-- The participant-added events of the batch are those of the participant loop. -/
theorem eventsOfType_added_batch (env : Env) (actorID : UUID) (board : Board)
    (oldAssigneeID : Option UUID) (existingParticipantIDs : UUIDSet)
    (req : UpdateBoardRequest) (project : Project) :
    eventsOfType NotificationTypeBoardParticipantAdded
      (boardUpdatedBatch env actorID board oldAssigneeID existingParticipantIDs req project) =
      if req.Participants.isSome then
        participantAddedEvents env actorID board project
          (if req.AssigneeID.isSome then assigneeStep env actorID board oldAssigneeID project []
            else []).length
          ((board.Participants.map (fun p => p.UserID)).filter
            (newlyAdded actorID board existingParticipantIDs))
      else [] := by
  rw [boardUpdatedBatch_eq]
  unfold eventsOfType
  rw [List.filter_append]
  have h1 : List.filter (fun e => e.Type_ == NotificationTypeBoardParticipantAdded)
      (if req.AssigneeID.isSome then assigneeStep env actorID board oldAssigneeID project []
        else []) = [] := by
    rw [List.filter_eq_nil_iff]
    intro e he
    split at he
    · rw [(assigneeStep_nil_mem env actorID board oldAssigneeID project e he).1]
      decide
    · simp at he
  have h2 : List.filter (fun e => e.Type_ == NotificationTypeBoardParticipantAdded)
      (if req.Participants.isSome then
        participantAddedEvents env actorID board project
          (if req.AssigneeID.isSome then assigneeStep env actorID board oldAssigneeID project []
            else []).length
          ((board.Participants.map (fun p => p.UserID)).filter
            (newlyAdded actorID board existingParticipantIDs))
        else []) =
      (if req.Participants.isSome then
        participantAddedEvents env actorID board project
          (if req.AssigneeID.isSome then assigneeStep env actorID board oldAssigneeID project []
            else []).length
          ((board.Participants.map (fun p => p.UserID)).filter
            (newlyAdded actorID board existingParticipantIDs))
        else []) := by
    rw [List.filter_eq_self]
    intro e he
    split at he
    · simp [(participantAddedEvents_mem env actorID board project _ _ e he).1]
    · simp at he
  rw [h1, h2, List.nil_append]

/-- C8: with notifications enabled and the project found, `sendBoardUpdatedNotifications`
produces exactly one BOARD_ASSIGNED event, targeting the new assignee, when the request
declares an assignee update, the assignee after the mutation is non-null, differs from the
assignee captured before the mutation and differs from the actor; in every other case it
produces none, in particular when the update is not declared or the assignee is cleared. -/
theorem sendBoardUpdatedNotifications_assigned_events (env : Env) (s : boardServiceImpl)
    (nc : NotiClient) (project : Project) (actorID : UUID) (board : Board)
    (oldAssigneeID : Option UUID) (existingParticipantIDs : UUIDSet)
    (req : UpdateBoardRequest)
    (hclient : s.notiClient = some nc) (henabled : nc.IsEnabled = true)
    (hproject : s.findProject board.ProjectID = Except.ok project) :
    (∀ newID, req.AssigneeID.isSome = true → board.AssigneeID = some newID →
      board.AssigneeID ≠ oldAssigneeID → newID ≠ actorID →
      eventsOfType NotificationTypeBoardAssigned
        (emittedEvents (s.sendBoardUpdatedNotifications env actorID board oldAssigneeID
          existingParticipantIDs req)) =
        [NewBoardAssignedEvent env 0 actorID newID project.WorkspaceID board.ID board.Title
          project.Name] ∧
      (NewBoardAssignedEvent env 0 actorID newID project.WorkspaceID board.ID board.Title
        project.Name).TargetUserID = newID) ∧
    (¬ (req.AssigneeID.isSome = true ∧ board.AssigneeID ≠ none ∧
        board.AssigneeID ≠ oldAssigneeID ∧ board.AssigneeID ≠ some actorID) →
      eventsOfType NotificationTypeBoardAssigned
        (emittedEvents (s.sendBoardUpdatedNotifications env actorID board oldAssigneeID
          existingParticipantIDs req)) = []) ∧
    (req.AssigneeID = none ∨ board.AssigneeID = none →
      eventsOfType NotificationTypeBoardAssigned
        (emittedEvents (s.sendBoardUpdatedNotifications env actorID board oldAssigneeID
          existingParticipantIDs req)) = []) := by
  rw [emittedEvents_enabled env s nc project actorID board oldAssigneeID existingParticipantIDs
    req hclient henabled hproject, eventsOfType_assigned_batch, assigneeStep_nil]
  have hnone : ¬ (req.AssigneeID.isSome = true ∧ board.AssigneeID ≠ none ∧
        board.AssigneeID ≠ oldAssigneeID ∧ board.AssigneeID ≠ some actorID) →
      (if req.AssigneeID.isSome then
        (match board.AssigneeID with
        | some newID =>
          if board.AssigneeID ≠ oldAssigneeID ∧ newID ≠ actorID then
            [NewBoardAssignedEvent env 0 actorID newID project.WorkspaceID board.ID board.Title
              project.Name]
          else []
        | none => [])
      else []) = [] := by
    intro hn
    by_cases hr : req.AssigneeID.isSome = true
    · rw [if_pos hr]
      cases hA : board.AssigneeID with
      | none => rfl
      | some newID =>
        simp only
        rw [if_neg]
        intro hc
        apply hn
        refine ⟨hr, by simp [hA], ?_, ?_⟩
        · rw [hA]; exact hc.1
        · rw [hA]; intro h; exact hc.2 (Option.some.inj h)
    · rw [if_neg hr]
  refine ⟨?_, hnone, ?_⟩
  · intro newID hr hA hold hact
    refine ⟨?_, rfl⟩
    rw [if_pos hr]
    simp only [hA]
    rw [if_pos ⟨by rw [← hA]; exact hold, hact⟩]
  · intro h
    apply hnone
    rintro ⟨hr, hA, _, _⟩
    rcases h with h | h
    · rw [h] at hr
      simp at hr
    · exact hA h

/-- Assigning the board to `userQ` by actor `userZ` gives one assigned event for `userQ`. -/
theorem sendBoardUpdatedNotifications_assigned_events_witness :
    eventsOfType NotificationTypeBoardAssigned
      (emittedEvents (svcEnabled.sendBoardUpdatedNotifications (envUnreachable []) userZ
        boardAfter none (existingParticipantSet [⟨userP⟩]) reqBoth)) =
      [NewBoardAssignedEvent (envUnreachable []) 0 userZ userQ idA idB "task" "proj"] :=
  ((sendBoardUpdatedNotifications_assigned_events (envUnreachable []) svcEnabled
    ncEnabled projectX userZ boardAfter none (existingParticipantSet [⟨userP⟩]) reqBoth rfl rfl rfl).1
    userQ rfl rfl (by decide) (by decide)).1

/-- C9: with notifications enabled and the project found, `sendBoardUpdatedNotifications`
produces BOARD_PARTICIPANT_ADDED events only when the request declares a participant-set
update, and then their targets are exactly the participant list after the mutation, in
order, filtered to the identities absent from the participant set taken before the
mutation, different from the actor and different from the assignee after the mutation:
one event per such entry. -/
theorem sendBoardUpdatedNotifications_participant_events (env : Env) (s : boardServiceImpl)
    (nc : NotiClient) (project : Project) (actorID : UUID) (board : Board)
    (oldAssigneeID : Option UUID) (existingParticipantIDs : UUIDSet)
    (req : UpdateBoardRequest)
    (hclient : s.notiClient = some nc) (henabled : nc.IsEnabled = true)
    (hproject : s.findProject board.ProjectID = Except.ok project) :
    (req.Participants = none →
      eventsOfType NotificationTypeBoardParticipantAdded
        (emittedEvents (s.sendBoardUpdatedNotifications env actorID board oldAssigneeID
          existingParticipantIDs req)) = []) ∧
    (req.Participants ≠ none →
      (eventsOfType NotificationTypeBoardParticipantAdded
        (emittedEvents (s.sendBoardUpdatedNotifications env actorID board oldAssigneeID
          existingParticipantIDs req))).map (fun e => e.TargetUserID) =
        (board.Participants.map (fun p => p.UserID)).filter
          (fun id => decide (existingParticipantIDs.get id = false ∧ id ≠ actorID ∧
            board.AssigneeID ≠ some id))) := by
  rw [emittedEvents_enabled env s nc project actorID board oldAssigneeID existingParticipantIDs
    req hclient henabled hproject, eventsOfType_added_batch]
  refine ⟨?_, ?_⟩
  · intro h
    simp [h]
  · intro h
    have hs : req.Participants.isSome = true := by
      cases hp : req.Participants with
      | none => exact absurd hp h
      | some _ => rfl
    rw [if_pos hs, participantAddedEvents_targets]
    apply List.filter_congr
    intro id _
    by_cases h1 : id = actorID <;> by_cases h2 : board.AssigneeID = some id <;>
      cases h3 : existingParticipantIDs.get id <;> simp [newlyAdded, h1, h2, h3]

/-- In the scenario only `userR` is a newly added participant to notify. -/
theorem sendBoardUpdatedNotifications_participant_events_witness :
    (eventsOfType NotificationTypeBoardParticipantAdded
      (emittedEvents (svcEnabled.sendBoardUpdatedNotifications (envUnreachable []) userZ
        boardAfter none (existingParticipantSet [⟨userP⟩]) reqBoth))).map
      (fun e => e.TargetUserID) = [userR] :=
  ((sendBoardUpdatedNotifications_participant_events (envUnreachable []) svcEnabled
    ncEnabled projectX userZ boardAfter none (existingParticipantSet [⟨userP⟩]) reqBoth
    rfl rfl rfl).2 (by decide)).trans (by decide)

/-- C10: no self-notification.  Every event `sendBoardUpdatedNotifications` puts in a batch
has a target different from its actor, and its actor is the acting identity; when the
assignee after the mutation is the actor, no BOARD_ASSIGNED event is produced. -/
theorem sendBoardUpdatedNotifications_no_self_notification (env : Env)
    (s : boardServiceImpl) (actorID : UUID) (board : Board) (oldAssigneeID : Option UUID)
    (existingParticipantIDs : UUIDSet) (req : UpdateBoardRequest) :
    (∀ batch ∈ s.sendBoardUpdatedNotifications env actorID board oldAssigneeID
        existingParticipantIDs req,
      ∀ e ∈ batch, e.TargetUserID ≠ e.ActorID ∧ e.ActorID = actorID) ∧
    (board.AssigneeID = some actorID →
      eventsOfType NotificationTypeBoardAssigned
        (emittedEvents (s.sendBoardUpdatedNotifications env actorID board oldAssigneeID
          existingParticipantIDs req)) = []) := by
  have hmem : ∀ e ∈ emittedEvents (s.sendBoardUpdatedNotifications env actorID board
      oldAssigneeID existingParticipantIDs req),
      e.ActorID = actorID ∧ e.TargetUserID ≠ actorID ∧
        (e.Type_ = NotificationTypeBoardAssigned → board.AssigneeID = some e.TargetUserID) := by
    intro e he
    obtain ⟨project, hb⟩ := emittedEvents_mem env s actorID board oldAssigneeID
      existingParticipantIDs req e he
    rw [boardUpdatedBatch_eq, List.mem_append] at hb
    rcases hb with hb | hb
    · split at hb
      · obtain ⟨_, h2, h3, h4⟩ := assigneeStep_nil_mem env actorID board oldAssigneeID project e hb
        exact ⟨h2, h3, fun _ => h4⟩
      · simp at hb
    · split at hb
      · obtain ⟨h1, h2, h3⟩ := participantAddedEvents_mem env actorID board project _ _ e hb
        refine ⟨h2, ?_, ?_⟩
        · have hn := (List.mem_filter.mp h3).2
          intro heq
          simp [newlyAdded, heq] at hn
        · intro ht
          rw [h1] at ht
          exact absurd ht (by decide)
      · simp at hb
  refine ⟨?_, ?_⟩
  · intro batch hbatch e he
    have hin : e ∈ emittedEvents (s.sendBoardUpdatedNotifications env actorID board
        oldAssigneeID existingParticipantIDs req) := by
      unfold emittedEvents
      exact List.mem_flatten.mpr ⟨batch, hbatch, he⟩
    obtain ⟨h1, h2, _⟩ := hmem e hin
    exact ⟨by rw [h1]; exact h2, h1⟩
  · intro hA
    unfold eventsOfType
    rw [List.filter_eq_nil_iff]
    intro e he ht
    obtain ⟨_, h2, h3⟩ := hmem e he
    have ht2 : e.Type_ = NotificationTypeBoardAssigned := by simpa using ht
    have := h3 ht2
    rw [hA] at this
    exact h2 (Option.some.inj this).symm

/-- An actor who assigns the board to themselves and adds themselves as a participant
gets no event at all. -/
theorem sendBoardUpdatedNotifications_no_self_notification_witness :
    svcEnabled.sendBoardUpdatedNotifications (envUnreachable []) userQ boardAfter none
      (existingParticipantSet [⟨userP⟩]) reqBoth =
      [[NewBoardParticipantAddedEvent (envUnreachable []) 0 userQ userR idA idB "task" "proj"]] ∧
    eventsOfType NotificationTypeBoardAssigned
      (emittedEvents (svcEnabled.sendBoardUpdatedNotifications (envUnreachable []) userQ
        boardAfter none (existingParticipantSet [⟨userP⟩]) reqBoth)) = [] :=
  ⟨by decide, (sendBoardUpdatedNotifications_no_self_notification (envUnreachable [])
    svcEnabled userQ boardAfter none (existingParticipantSet [⟨userP⟩]) reqBoth).2 rfl⟩

/-- The snapshot map holds exactly the participants it was taken from. -/
theorem existingParticipantSet_get (ps : List Participant) (id : UUID) :
    (existingParticipantSet ps).get id = true ↔ id ∈ ps.map (fun p => p.UserID) := by
  induction ps with
  | nil => simp [existingParticipantSet, UUIDSet.get]
  | cons p rest ih =>
    unfold existingParticipantSet UUIDSet.get at ih ⊢
    by_cases h : id = p.UserID
    · simp [List.lookup, h]
    · have h2 : (id == p.UserID) = false := by simpa using h
      simp only [List.map_cons, List.lookup, h2, List.mem_cons, h, false_or]
      exact ih

/-- No bulk-send call is made when the batch is empty for every project. -/
theorem sendBoardUpdatedNotifications_eq_nil (env : Env) (s : boardServiceImpl)
    (actorID : UUID) (board : Board) (oldAssigneeID : Option UUID)
    (existingParticipantIDs : UUIDSet) (req : UpdateBoardRequest)
    (h : ∀ project, boardUpdatedBatch env actorID board oldAssigneeID existingParticipantIDs
      req project = []) :
    s.sendBoardUpdatedNotifications env actorID board oldAssigneeID existingParticipantIDs
      req = [] := by
  unfold boardServiceImpl.sendBoardUpdatedNotifications
  split
  · rfl
  · split
    · rfl
    · split
      · rfl
      · rename_i project _
        simp [h project]

/-- C11: dedup.  With notifications enabled and the project found, when both an assignee
update and a participant-set update are declared and a user Y, different from the actor
and from the previous assignee, is the assignee after the mutation, the batch has exactly
one event whose target is Y, the BOARD_ASSIGNED event, whether or not Y also appears in the
participant list after the mutation: no BOARD_PARTICIPANT_ADDED event targets Y. -/
theorem sendBoardUpdatedNotifications_dedup (env : Env) (s : boardServiceImpl)
    (nc : NotiClient) (project : Project) (actorID : UUID) (board : Board)
    (oldAssigneeID : Option UUID) (existingParticipantIDs : UUIDSet)
    (req : UpdateBoardRequest) (Y : UUID)
    (hclient : s.notiClient = some nc) (henabled : nc.IsEnabled = true)
    (hproject : s.findProject board.ProjectID = Except.ok project)
    (hreqA : req.AssigneeID ≠ none) (hreqP : req.Participants ≠ none)
    (hactor : Y ≠ actorID) (hold : oldAssigneeID ≠ some Y)
    (hafter : board.AssigneeID = some Y) :
    (emittedEvents (s.sendBoardUpdatedNotifications env actorID board oldAssigneeID
        existingParticipantIDs req)).filter (fun e => e.TargetUserID == Y) =
      [NewBoardAssignedEvent env 0 actorID Y project.WorkspaceID board.ID board.Title
        project.Name] ∧
    (NewBoardAssignedEvent env 0 actorID Y project.WorkspaceID board.ID board.Title
      project.Name).Type_ = NotificationTypeBoardAssigned ∧
    eventsOfType NotificationTypeBoardParticipantAdded
      ((emittedEvents (s.sendBoardUpdatedNotifications env actorID board oldAssigneeID
        existingParticipantIDs req)).filter (fun e => e.TargetUserID == Y)) = [] := by
  have hA : req.AssigneeID.isSome = true := by
    cases h : req.AssigneeID with
    | none => exact absurd h hreqA
    | some _ => rfl
  have hP : req.Participants.isSome = true := by
    cases h : req.Participants with
    | none => exact absurd h hreqP
    | some _ => rfl
  have hstep : assigneeStep env actorID board oldAssigneeID project [] =
      [NewBoardAssignedEvent env 0 actorID Y project.WorkspaceID board.ID board.Title
        project.Name] := by
    rw [assigneeStep_nil]
    simp only [hafter]
    rw [if_pos ⟨fun h => hold h.symm, hactor⟩]
  have hfilter : (emittedEvents (s.sendBoardUpdatedNotifications env actorID board
      oldAssigneeID existingParticipantIDs req)).filter (fun e => e.TargetUserID == Y) =
      [NewBoardAssignedEvent env 0 actorID Y project.WorkspaceID board.ID board.Title
        project.Name] := by
    rw [emittedEvents_enabled env s nc project actorID board oldAssigneeID
      existingParticipantIDs req hclient henabled hproject, boardUpdatedBatch_eq,
      if_pos hA, if_pos hP, hstep, List.filter_append]
    have h2 : List.filter (fun e => e.TargetUserID == Y)
        (participantAddedEvents env actorID board project
          [NewBoardAssignedEvent env 0 actorID Y project.WorkspaceID board.ID board.Title
            project.Name].length
          ((board.Participants.map (fun p => p.UserID)).filter
            (newlyAdded actorID board existingParticipantIDs))) = [] := by
      rw [List.filter_eq_nil_iff]
      intro e he ht
      have hmem := (participantAddedEvents_mem env actorID board project _ _ e he).2.2
      have hn := (List.mem_filter.mp hmem).2
      have hY : e.TargetUserID = Y := by simpa using ht
      rw [hY] at hn
      simp [newlyAdded, hafter] at hn
    rw [h2]
    simp [NewBoardAssignedEvent]
  refine ⟨hfilter, rfl, ?_⟩
  rw [hfilter]
  simp [eventsOfType, NewBoardAssignedEvent, NotificationTypeBoardAssigned,
    NotificationTypeBoardParticipantAdded]

/-- In the scenario `userQ` is the new assignee and a new participant: one assigned event. -/
theorem sendBoardUpdatedNotifications_dedup_witness :
    (emittedEvents (svcEnabled.sendBoardUpdatedNotifications (envUnreachable []) userZ
        boardAfter none (existingParticipantSet [⟨userP⟩]) reqBoth)).filter
        (fun e => e.TargetUserID == userQ) =
      [NewBoardAssignedEvent (envUnreachable []) 0 userZ userQ idA idB "task" "proj"] :=
  (sendBoardUpdatedNotifications_dedup (envUnreachable []) svcEnabled ncEnabled projectX
    userZ boardAfter none (existingParticipantSet [⟨userP⟩]) reqBoth userQ rfl rfl rfl
    (by decide) (by decide) (by decide) (by decide) rfl).1

/-- C13: in the scenario before = (no assignee, participants A), after = (assignee B,
participants A, B, C), actor Z, with both updates declared, notifications enabled and the
project found, `sendBoardUpdatedNotifications` makes a single bulk-send call whose batch is
the BOARD_ASSIGNED event for B followed by the BOARD_PARTICIPANT_ADDED event for C; the
two events are given field by field, with their type and target.  Of the pairwise
distinctness of A, B, C, Z only A ≠ C, B ≠ C, B ≠ Z and C ≠ Z are needed. -/
theorem sendBoardUpdatedNotifications_scenario (env : Env) (s : boardServiceImpl)
    (nc : NotiClient) (project : Project) (A B C Z : UUID) (board : Board)
    (req : UpdateBoardRequest)
    (hclient : s.notiClient = some nc) (henabled : nc.IsEnabled = true)
    (hproject : s.findProject board.ProjectID = Except.ok project)
    (hAC : A ≠ C) (hBC : B ≠ C) (hBZ : B ≠ Z) (hCZ : C ≠ Z)
    (hassignee : board.AssigneeID = some B)
    (hparticipants : board.Participants = [⟨A⟩, ⟨B⟩, ⟨C⟩])
    (hreqA : req.AssigneeID ≠ none) (hreqP : req.Participants ≠ none) :
    s.sendBoardUpdatedNotifications env Z board none (existingParticipantSet [⟨A⟩]) req =
      [[NewBoardAssignedEvent env 0 Z B project.WorkspaceID board.ID board.Title project.Name,
        NewBoardParticipantAddedEvent env 1 Z C project.WorkspaceID board.ID board.Title
          project.Name]] ∧
    s.sendBoardUpdatedNotifications env Z board none (existingParticipantSet [⟨A⟩]) req =
      [[{ Type_ := "BOARD_ASSIGNED"
          ActorID := Z
          TargetUserID := B
          WorkspaceID := project.WorkspaceID
          ResourceType := "board"
          ResourceID := board.ID
          ResourceName := some board.Title
          Metadata := [("projectName", GoValue.string project.Name),
            ("timestamp", GoValue.int64 (env.now 0))] },
        { Type_ := "BOARD_PARTICIPANT_ADDED"
          ActorID := Z
          TargetUserID := C
          WorkspaceID := project.WorkspaceID
          ResourceType := "board"
          ResourceID := board.ID
          ResourceName := some board.Title
          Metadata := [("projectName", GoValue.string project.Name),
            ("timestamp", GoValue.int64 (env.now 1))] }]] ∧
    (s.sendBoardUpdatedNotifications env Z board none (existingParticipantSet [⟨A⟩]) req).map
        (List.map (fun e => (e.Type_, e.TargetUserID))) =
      [[("BOARD_ASSIGNED", B), ("BOARD_PARTICIPANT_ADDED", C)]] := by
  have hA : req.AssigneeID.isSome = true := by
    cases h : req.AssigneeID with
    | none => exact absurd h hreqA
    | some _ => rfl
  have hP : req.Participants.isSome = true := by
    cases h : req.Participants with
    | none => exact absurd h hreqP
    | some _ => rfl
  have hgetA : (existingParticipantSet [⟨A⟩]).get A = true :=
    (existingParticipantSet_get [⟨A⟩] A).mpr (by simp)
  have hgetC : (existingParticipantSet [⟨A⟩]).get C = false := by
    cases h : (existingParticipantSet [⟨A⟩]).get C with
    | false => rfl
    | true =>
      have := (existingParticipantSet_get [⟨A⟩] C).mp h
      simp at this
      exact absurd this.symm hAC
  have hnA : newlyAdded Z board (existingParticipantSet [⟨A⟩]) A = false := by
    simp [newlyAdded, hgetA]
  have hnB : newlyAdded Z board (existingParticipantSet [⟨A⟩]) B = false := by
    simp [newlyAdded, hassignee]
  have hnC : newlyAdded Z board (existingParticipantSet [⟨A⟩]) C = true := by
    simp [newlyAdded, hgetC, hCZ, hassignee, hBC]
  have hbatch : boardUpdatedBatch env Z board none (existingParticipantSet [⟨A⟩]) req project =
      [NewBoardAssignedEvent env 0 Z B project.WorkspaceID board.ID board.Title project.Name,
        NewBoardParticipantAddedEvent env 1 Z C project.WorkspaceID board.ID board.Title
          project.Name] := by
    rw [boardUpdatedBatch_eq, if_pos hA, if_pos hP, assigneeStep_nil]
    simp only [hassignee, hparticipants, List.map_cons, List.map_nil]
    rw [if_pos ⟨by simp, hBZ⟩]
    simp [List.filter_cons, hnA, hnB, hnC, participantAddedEvents]
  have hsend : s.sendBoardUpdatedNotifications env Z board none
      (existingParticipantSet [⟨A⟩]) req =
      [[NewBoardAssignedEvent env 0 Z B project.WorkspaceID board.ID board.Title project.Name,
        NewBoardParticipantAddedEvent env 1 Z C project.WorkspaceID board.ID board.Title
          project.Name]] := by
    unfold boardServiceImpl.sendBoardUpdatedNotifications
    simp [hclient, henabled, hproject, hbatch]
  refine ⟨hsend, ?_, ?_⟩
  · rw [hsend]
    rfl
  · rw [hsend]
    rfl

/-- The scenario at concrete identities: the call list is one batch holding the
BOARD_ASSIGNED event for `userQ` and then the BOARD_PARTICIPANT_ADDED event for `userR`. -/
theorem sendBoardUpdatedNotifications_scenario_witness :
    (svcEnabled.sendBoardUpdatedNotifications (envUnreachable []) userZ boardAfter none
        (existingParticipantSet [⟨userP⟩]) reqBoth).map
        (List.map (fun e => (e.Type_, e.ActorID, e.TargetUserID))) =
      [[("BOARD_ASSIGNED", userZ, userQ), ("BOARD_PARTICIPANT_ADDED", userZ, userR)]] ∧
    (svcEnabled.sendBoardUpdatedNotifications (envUnreachable []) userZ boardAfter none
        (existingParticipantSet [⟨userP⟩]) reqBoth).map
        (List.map (fun e => (e.Type_, e.TargetUserID))) =
      [[("BOARD_ASSIGNED", userQ), ("BOARD_PARTICIPANT_ADDED", userR)]] :=
  ⟨by decide,
   (sendBoardUpdatedNotifications_scenario (envUnreachable []) svcEnabled ncEnabled projectX
    userP userQ userR userZ boardAfter reqBoth rfl rfl rfl (by decide) (by decide) (by decide)
    (by decide) rfl rfl (by decide) (by decide)).2.2⟩

/-- C15: `sendBoardUpdatedNotifications` makes no bulk-send call, hence produces no event,
when the request declares neither an assignee update nor a participant-set update, and
also when the snapshots before and after the mutation are identical (same assignee, same
participant set), whatever the request declares. -/
theorem sendBoardUpdatedNotifications_no_change (env : Env) (s : boardServiceImpl)
    (actorID : UUID) (board : Board) (oldAssigneeID : Option UUID)
    (existingParticipantIDs : UUIDSet) (req : UpdateBoardRequest) :
    (req.AssigneeID = none → req.Participants = none →
      s.sendBoardUpdatedNotifications env actorID board oldAssigneeID existingParticipantIDs
        req = []) ∧
    (oldAssigneeID = board.AssigneeID →
      (∀ id, existingParticipantIDs.get id = true ↔
        id ∈ board.Participants.map (fun p => p.UserID)) →
      s.sendBoardUpdatedNotifications env actorID board oldAssigneeID existingParticipantIDs
        req = []) := by
  refine ⟨?_, ?_⟩
  · intro hA hP
    apply sendBoardUpdatedNotifications_eq_nil
    intro project
    rw [boardUpdatedBatch_eq]
    simp [hA, hP]
  · intro hold hsame
    apply sendBoardUpdatedNotifications_eq_nil
    intro project
    rw [boardUpdatedBatch_eq, assigneeStep_nil]
    have hfilter : (board.Participants.map (fun p => p.UserID)).filter
        (newlyAdded actorID board existingParticipantIDs) = [] := by
      rw [List.filter_eq_nil_iff]
      intro id hid
      have := (hsame id).mpr hid
      simp [newlyAdded, this]
    have hstep : (match board.AssigneeID with
        | some newID =>
          if board.AssigneeID ≠ oldAssigneeID ∧ newID ≠ actorID then
            [NewBoardAssignedEvent env 0 actorID newID project.WorkspaceID board.ID
              board.Title project.Name]
          else []
        | none => []) = [] := by
      cases hb : board.AssigneeID with
      | none => rfl
      | some newID =>
        simp only
        rw [if_neg]
        intro hc
        exact hc.1 (by rw [hold, hb])
    rw [hfilter, hstep]
    simp [participantAddedEvents]

/-- Identical snapshots with both updates declared give no bulk-send call. -/
theorem sendBoardUpdatedNotifications_no_change_witness :
    svcEnabled.sendBoardUpdatedNotifications (envUnreachable []) userZ boardAfter
      boardAfter.AssigneeID (existingParticipantSet boardAfter.Participants) reqBoth = [] :=
  (sendBoardUpdatedNotifications_no_change (envUnreachable []) svcEnabled userZ boardAfter
    boardAfter.AssigneeID (existingParticipantSet boardAfter.Participants) reqBoth).2 rfl
    (existingParticipantSet_get boardAfter.Participants)

/-! ## The notification client -/

/-- C14: bulk cap.  Every request `SendBulkNotifications` sends carries the first
min(n, 100) events of the list it was given, in their order.  On an enabled client with a
non-empty list whose payload marshals and whose request can be built, exactly one such
request is sent, and a 200 or 201 answer gives a nil error, truncated or not.  With an
empty list, or a disabled client, no request is sent and nil is returned. -/
theorem SendBulkNotifications_cap (env : Env) (c : notiClientImpl)
    (events : List NotificationEvent) :
    (c.IsEnabled = false ∨ events.length = 0 →
      c.SendBulkNotifications env events = (none, [])) ∧
    (∀ req ∈ (c.SendBulkNotifications env events).2,
      req = bulkNotificationsRequest c (events.take 100) ∧
      req.body = some (Payload.bulkNotifications (events.take (min events.length 100)))) ∧
    (c.IsEnabled = true → events.length ≠ 0 →
      env.marshalError (Payload.bulkNotifications (events.take 100)) = none →
      env.newRequest "POST" (bulkNotificationsRequest c (events.take 100)).url = none →
      (c.SendBulkNotifications env events).2 =
        [bulkNotificationsRequest c (events.take 100)] ∧
      (∀ resp, env.httpDo (bulkNotificationsRequest c (events.take 100)) = Except.ok resp →
        resp.StatusCode = 200 ∨ resp.StatusCode = 201 →
        (c.SendBulkNotifications env events).1 = none)) ∧
    (events.take 100).length = min events.length 100 := by
  have hcap : (if events.length > 100 then events.take 100 else events) = events.take 100 := by
    split
    · rfl
    · rw [List.take_of_length_le (by omega)]
  have hmin : events.take (min events.length 100) = events.take 100 := by
    by_cases h : events.length ≤ 100
    · rw [Nat.min_eq_left h, List.take_of_length_le (Nat.le_refl _), List.take_of_length_le h]
    · rw [Nat.min_eq_right (by omega)]
  refine ⟨?_, ?_, ?_, ?_⟩
  · intro h
    unfold notiClientImpl.SendBulkNotifications
    rcases h with h | h
    · simp [h]
    · simp [h]
  · intro req hreq
    rw [hmin]
    unfold notiClientImpl.SendBulkNotifications at hreq
    rw [hcap] at hreq
    split at hreq
    · simp at hreq
    · split at hreq
      · simp at hreq
      · dsimp only at hreq
        split at hreq
        · simp at hreq
        · split at hreq
          · simp at hreq
          · split at hreq
            · simp only [List.mem_singleton] at hreq
              exact ⟨hreq, by rw [hreq]; rfl⟩
            · split at hreq
              · simp only [List.mem_singleton] at hreq
                exact ⟨hreq, by rw [hreq]; rfl⟩
              · simp only [List.mem_singleton] at hreq
                exact ⟨hreq, by rw [hreq]; rfl⟩
  · intro hen hlen hmarshal hnew
    unfold notiClientImpl.SendBulkNotifications
    rw [hcap]
    simp only [hen, hlen, hmarshal, hnew, Bool.not_true, Bool.false_eq_true, if_false]
    refine ⟨?_, ?_⟩
    · split
      · rfl
      · split <;> rfl
    · intro resp hresp hstatus
      rw [hresp]
      dsimp only
      rw [if_neg]
      intro hc
      rcases hstatus with h | h
      · exact hc.2 h
      · exact hc.1 h
  · rw [List.length_take, Nat.min_comm]

/-- Of 150 events exactly the first 100 are submitted, in one request, without error. -/
theorem SendBulkNotifications_cap_witness :
    (implEnabled.SendBulkNotifications envCreated (List.replicate 150 eventX)).2 =
      [bulkNotificationsRequest implEnabled ((List.replicate 150 eventX).take 100)] ∧
    ((List.replicate 150 eventX).take 100).length = 100 ∧
    (implEnabled.SendBulkNotifications envCreated (List.replicate 150 eventX)).1 = none :=
  ⟨((SendBulkNotifications_cap envCreated implEnabled (List.replicate 150 eventX)).2.2.1 rfl
      (by simp) rfl rfl).1,
    by simp,
    ((SendBulkNotifications_cap envCreated implEnabled (List.replicate 150 eventX)).2.2.1 rfl
      (by simp) rfl rfl).2 { StatusCode := 201, Body := "" } rfl (Or.inr rfl)⟩

/-! ## Totality of `validateLocally` -/

/-- C20, at a failing input: on a validly signed token whose `sub` claim is a number,
`validateLocally` returns neither an identity nor an error; the unchecked assertion
`val.(string)` aborts it with a run-time panic, although `userId` holds a well-formed
identifier. -/
theorem validateLocally_panics_on_numeric_sub :
    ValidToken (envUnreachable claimsNumericSub) vLocal "tok" claimsNumericSub ∧
    vLocal.validateLocally (envUnreachable claimsNumericSub) "tok" =
      Outcome.panic "interface conversion: interface is not string" ∧
    (∀ r, vLocal.validateLocally (envUnreachable claimsNumericSub) "tok" ≠ Outcome.ret r) ∧
    (vLocal.ValidateToken (envUnreachable claimsNumericSub) "tok").1 =
      Outcome.panic "interface conversion: interface is not string" := by
  refine ⟨⟨_, rfl, rfl, rfl⟩, by decide, ?_, by decide⟩
  intro r h
  have hp : vLocal.validateLocally (envUnreachable claimsNumericSub) "tok" =
      Outcome.panic "interface conversion: interface is not string" := by decide
  rw [hp] at h
  exact Outcome.noConfusion h

/-! ## The middlewares -/

theorem stringsSplit_empty : stringsSplit "" = [""] := by decide

theorem stringsSplitN2_empty : stringsSplitN2 "" = [""] := by decide

/-- What a rejection leaves in the request context: status 401 with the message, the chain
aborted, and the keys and the rest untouched. -/
theorem rejected_context (c : GinContext) (message : String) :
    (response.Unauthorized c message).Abort =
      { c with response := some (401, message), aborted := true } := rfl

/-- C16: the authentication middlewares do not reveal which validation path failed.  For
a request with a well-formed bearer header and any two validators that return errors e1
and e2 for its token, `AuthMiddleware` of noti-service and of video-service and
`AuthWithValidator` of storage-service each produce one and the same outcome: status 401
with a fixed message, the chain aborted, the remaining handlers not run and no key bound
to the request context. -/
theorem AuthMiddleware_uniform_rejection (c : GinContext)
    (validator1 validator2 : TokenValidator) (tokenString : String) (id1 id2 : UUID)
    (e1 e2 : GoError)
    (h1 : validator1 tokenString = Outcome.ret (id1, some e1))
    (h2 : validator2 tokenString = Outcome.ret (id2, some e2)) :
    (∀ scheme, stringsSplit (c.GetHeader "Authorization") = [scheme, tokenString] →
      stringsToLower scheme = "bearer" →
      noti.AuthMiddleware validator1 c =
        Outcome.ret { c with response := some (401, "Invalid token"), aborted := true } ∧
      noti.AuthMiddleware validator2 c = noti.AuthMiddleware validator1 c ∧
      video.AuthMiddleware validator1 c =
        Outcome.ret { c with response := some (401, "Invalid token"), aborted := true } ∧
      video.AuthMiddleware validator2 c = video.AuthMiddleware validator1 c) ∧
    (stringsSplitN2 (c.GetHeader "Authorization") = ["Bearer", tokenString] →
      storage.AuthWithValidator validator1 c =
        Outcome.ret
          { c with response := some (401, "Invalid or expired token"), aborted := true } ∧
      storage.AuthWithValidator validator2 c = storage.AuthWithValidator validator1 c) := by
  refine ⟨?_, ?_⟩
  · intro scheme hsplit hlower
    have hne : c.GetHeader "Authorization" ≠ "" := by
      intro h
      rw [h, stringsSplit_empty] at hsplit
      simp at hsplit
    have hn : ∀ validator : TokenValidator, ∀ id e,
        validator tokenString = Outcome.ret (id, some e) →
        noti.AuthMiddleware validator c =
          Outcome.ret { c with response := some (401, "Invalid token"), aborted := true } := by
      intro validator id e hv
      unfold noti.AuthMiddleware
      simp only [hne, hsplit, if_false, List.length_cons, List.length_nil, List.getD_cons_zero,
        List.getD_cons_succ, hlower, ne_eq, not_true_eq_false, or_self, hv]
      rfl
    have hvd : ∀ validator : TokenValidator, ∀ id e,
        validator tokenString = Outcome.ret (id, some e) →
        video.AuthMiddleware validator c =
          Outcome.ret { c with response := some (401, "Invalid token"), aborted := true } := by
      intro validator id e hv
      unfold video.AuthMiddleware
      simp only [hne, hsplit, if_false, List.length_cons, List.length_nil, List.getD_cons_zero,
        List.getD_cons_succ, hlower, ne_eq, not_true_eq_false, or_self, hv]
      rfl
    refine ⟨hn _ _ _ h1, ?_, hvd _ _ _ h1, ?_⟩
    · rw [hn _ _ _ h1, hn _ _ _ h2]
    · rw [hvd _ _ _ h1, hvd _ _ _ h2]
  · intro hsplit
    have hne : c.GetHeader "Authorization" ≠ "" := by
      intro h
      rw [h, stringsSplitN2_empty] at hsplit
      simp at hsplit
    have hs : ∀ validator : TokenValidator, ∀ id e,
        validator tokenString = Outcome.ret (id, some e) →
        storage.AuthWithValidator validator c =
          Outcome.ret
            { c with response := some (401, "Invalid or expired token"), aborted := true } := by
      intro validator id e hv
      unfold storage.AuthWithValidator
      simp only [hne, hsplit, if_false, List.length_cons, List.length_nil, List.getD_cons_zero,
        List.getD_cons_succ, ne_eq, not_true_eq_false, or_self, hv]
      rfl
    refine ⟨hs _ _ _ h1, ?_⟩
    rw [hs _ _ _ h1, hs _ _ _ h2]

/-- A token with no identifier claim and a token with a malformed identifier are rejected
with the same answer. -/
theorem AuthMiddleware_uniform_rejection_witness :
    noti.AuthMiddleware (vLocal.asTokenValidator (envUnreachable claimsMalformedSub))
        ctxBearer =
      noti.AuthMiddleware (vLocal.asTokenValidator (envUnreachable claimsNoKey)) ctxBearer ∧
    noti.AuthMiddleware (vLocal.asTokenValidator (envUnreachable claimsNoKey)) ctxBearer =
      Outcome.ret { ctxBearer with response := some (401, "Invalid token"), aborted := true } :=
  ⟨((AuthMiddleware_uniform_rejection ctxBearer
      (vLocal.asTokenValidator (envUnreachable claimsNoKey))
      (vLocal.asTokenValidator (envUnreachable claimsMalformedSub)) "tok" UUID.Nil UUID.Nil
      GoError.ErrTokenInvalidClaims (GoError.uuidInvalidLength 10) (by decide) (by decide)).1
      "Bearer" (by decide) (by decide)).2.1,
   ((AuthMiddleware_uniform_rejection ctxBearer
      (vLocal.asTokenValidator (envUnreachable claimsNoKey))
      (vLocal.asTokenValidator (envUnreachable claimsMalformedSub)) "tok" UUID.Nil UUID.Nil
      GoError.ErrTokenInvalidClaims (GoError.uuidInvalidLength 10) (by decide) (by decide)).1
      "Bearer" (by decide) (by decide)).1⟩

/-- C17, as stated, fails: the authority answers 200 and the body decodes, the `userId`
is of the 36-byte form with a malformed tail; `validateWithAuthService` returns the error
of `uuid.Parse` together with the partly filled array `uuid.Parse` hands back, which is
not `uuid.Nil`. -/
theorem validateWithAuthService_error_with_non_nil :
    (vRemote.validateWithAuthService envAuthorityBadTail "tok").1 =
      (⟨[18, 62, 69, 103, 232, 155, 18, 211, 164, 86, 66, 102, 20, 23, 0, 0]⟩,
        some GoError.uuidInvalidFormat) ∧
    (vRemote.validateWithAuthService envAuthorityBadTail "tok").1.2 ≠ none ∧
    (vRemote.validateWithAuthService envAuthorityBadTail "tok").1.1 ≠ UUID.Nil := by
  refine ⟨by decide, by decide, by decide⟩

/-- C17, amended: `validateWithAuthService` returns a nil error if and only if the request
could be built and sent, the answer has status 200, its body decodes and the `userId`
parses as an identifier, and then the identity is the parsed one.  In every other case it
returns an error: with `uuid.Nil` for a request that cannot be built, a transport failure,
a status other than 200, an undecodable body and a missing or empty `userId`; for any other
`userId` the result is the pair `uuid.Parse` returns, whose array need not be `uuid.Nil`. -/
theorem validateWithAuthService_result (env : Env) (v : AuthServiceValidator)
    (token : String) :
    ((v.validateWithAuthService env token).1.2 = none ↔
      ∃ resp userID,
        env.newRequest "POST" (v.authServiceURL ++ "/api/auth/validate") = none ∧
        env.httpDo (authValidateRequest v token) = Except.ok resp ∧
        resp.StatusCode = 200 ∧ env.decodeUserID resp.Body = Except.ok userID ∧
        (uuidParse userID).2 = none) ∧
    (∀ e, env.newRequest "POST" (v.authServiceURL ++ "/api/auth/validate") = some e →
      (v.validateWithAuthService env token).1 = (UUID.Nil, some e)) ∧
    (env.newRequest "POST" (v.authServiceURL ++ "/api/auth/validate") = none →
      (∀ e, env.httpDo (authValidateRequest v token) = Except.error e →
        (v.validateWithAuthService env token).1 = (UUID.Nil, some e)) ∧
      (∀ resp, env.httpDo (authValidateRequest v token) = Except.ok resp →
        (resp.StatusCode ≠ 200 →
          (v.validateWithAuthService env token).1 =
            (UUID.Nil, some GoError.ErrTokenInvalidClaims)) ∧
        (resp.StatusCode = 200 → ∀ e, env.decodeUserID resp.Body = Except.error e →
          (v.validateWithAuthService env token).1 = (UUID.Nil, some e)) ∧
        (resp.StatusCode = 200 → env.decodeUserID resp.Body = Except.ok "" →
          (v.validateWithAuthService env token).1 =
            (UUID.Nil, some (GoError.uuidInvalidLength 0))) ∧
        (resp.StatusCode = 200 → ∀ userID, env.decodeUserID resp.Body = Except.ok userID →
          (v.validateWithAuthService env token).1 = uuidParse userID))) := by
  refine ⟨?_, ?_, ?_⟩
  · constructor
    · intro h
      unfold AuthServiceValidator.validateWithAuthService at h
      dsimp only at h
      split at h
      · simp at h
      · rename_i hreq
        split at h
        · simp at h
        · rename_i resp hresp
          split at h
          · simp at h
          · rename_i hs
            split at h
            · simp at h
            · rename_i userID hdec
              exact ⟨resp, userID, hreq, hresp, not_not.mp hs, hdec, h⟩
    · rintro ⟨resp, userID, hreq, hresp, hs, hdec, hp⟩
      simp [AuthServiceValidator.validateWithAuthService, hreq, hresp, hs, hdec, hp]
  · intro e he
    simp [AuthServiceValidator.validateWithAuthService, he]
  · intro hreq
    refine ⟨?_, ?_⟩
    · intro e he
      simp [AuthServiceValidator.validateWithAuthService, hreq, he]
    · intro resp hresp
      refine ⟨?_, ?_, ?_, ?_⟩
      · intro hs
        simp [AuthServiceValidator.validateWithAuthService, hreq, hresp, hs]
      · intro hs e he
        simp [AuthServiceValidator.validateWithAuthService, hreq, hresp, hs, he]
      · intro hs he
        simp [AuthServiceValidator.validateWithAuthService, hreq, hresp, hs, he,
          uuidParse_empty]
      · intro hs userID he
        simp [AuthServiceValidator.validateWithAuthService, hreq, hresp, hs, he]

/-- The result on a malformed `userId` is the pair `uuid.Parse` returns. -/
theorem validateWithAuthService_result_witness :
    (vRemote.validateWithAuthService envAuthorityBadTail "tok").1 = uuidParse userIdBadTail :=
  ((validateWithAuthService_result envAuthorityBadTail vRemote "tok").2.2 rfl).2
    { StatusCode := 200, Body := "body" } rfl |>.2.2.2 rfl userIdBadTail rfl

/-- C18: `InternalAuthMiddleware(apiKey)` lets a request proceed if and only if the value
of the X-Internal-Api-Key header is non-empty and equal to `apiKey`; in every other case
(header absent, empty or different) it answers 401 and aborts.  Both spellings of the
header name read the same value.  With an empty `apiKey` every request is rejected. -/
theorem InternalAuthMiddleware_accepts_iff (apiKey : String) (c : GinContext) :
    c.GetHeader "x-internal-api-key" = c.GetHeader "X-Internal-Api-Key" ∧
    (c.Header.lookup "X-Internal-Api-Key" = none → c.GetHeader "X-Internal-Api-Key" = "") ∧
    (c.GetHeader "X-Internal-Api-Key" ≠ "" ∧ c.GetHeader "X-Internal-Api-Key" = apiKey →
      noti.InternalAuthMiddleware apiKey c = c.Next) ∧
    (¬ (c.GetHeader "X-Internal-Api-Key" ≠ "" ∧ c.GetHeader "X-Internal-Api-Key" = apiKey) →
      noti.InternalAuthMiddleware apiKey c =
        { c with response := some (401, "Invalid internal API key"), aborted := true }) ∧
    (apiKey = "" →
      noti.InternalAuthMiddleware apiKey c =
        { c with response := some (401, "Invalid internal API key"), aborted := true }) ∧
    (c.aborted = false →
      ((noti.InternalAuthMiddleware apiKey c).aborted = false ↔
        (c.GetHeader "X-Internal-Api-Key" ≠ "" ∧ c.GetHeader "X-Internal-Api-Key" = apiKey))) := by
  have hsame : c.GetHeader "x-internal-api-key" = c.GetHeader "X-Internal-Api-Key" := by
    have hk1 : CanonicalMIMEHeaderKey "x-internal-api-key" = "X-Internal-Api-Key" := by decide
    have hk2 : CanonicalMIMEHeaderKey "X-Internal-Api-Key" = "X-Internal-Api-Key" := by decide
    unfold GinContext.GetHeader
    rw [hk1, hk2]
  have hyes : c.GetHeader "X-Internal-Api-Key" ≠ "" ∧ c.GetHeader "X-Internal-Api-Key" = apiKey →
      noti.InternalAuthMiddleware apiKey c = c.Next := by
    rintro ⟨hne, heq⟩
    unfold noti.InternalAuthMiddleware
    simp only [hsame, ite_self]
    rw [if_neg]
    rintro (h | h)
    · exact hne h
    · exact h heq
  have hno : ¬ (c.GetHeader "X-Internal-Api-Key" ≠ "" ∧ c.GetHeader "X-Internal-Api-Key" = apiKey) →
      noti.InternalAuthMiddleware apiKey c =
        { c with response := some (401, "Invalid internal API key"), aborted := true } := by
    intro hn
    unfold noti.InternalAuthMiddleware
    simp only [hsame, ite_self]
    rw [if_pos]
    · rfl
    · by_cases h : c.GetHeader "X-Internal-Api-Key" = ""
      · exact Or.inl h
      · exact Or.inr (fun heq => hn ⟨h, heq⟩)
  refine ⟨hsame, ?_, hyes, hno, ?_, ?_⟩
  · intro h
    have hk2 : CanonicalMIMEHeaderKey "X-Internal-Api-Key" = "X-Internal-Api-Key" := by decide
    unfold GinContext.GetHeader
    rw [hk2, h]
  · intro h
    apply hno
    rintro ⟨hne, heq⟩
    exact hne (heq.trans h)
  · intro hab
    constructor
    · intro h
      by_contra hn
      rw [hno hn] at h
      simp at h
    · intro hc
      rw [hyes hc]
      exact hab

/-- A request carrying the configured key proceeds; with an empty configured key the same
request is rejected. -/
theorem InternalAuthMiddleware_accepts_iff_witness :
    noti.InternalAuthMiddleware "key" ctxBearer = ctxBearer.Next ∧
    noti.InternalAuthMiddleware "" ctxBearer =
      { ctxBearer with response := some (401, "Invalid internal API key"), aborted := true } :=
  ⟨(InternalAuthMiddleware_accepts_iff "key" ctxBearer).2.2.1 ⟨by decide, by decide⟩,
   (InternalAuthMiddleware_accepts_iff "" ctxBearer).2.2.2.2.1 rfl⟩

end Wealist
